import Mathlib

/-!
Verification development for the PlayerRating repository.

The Python source keeps all ledger state in SQLite tables; here a single
match (the unit every operation of `db.py` works on) is embedded as an
explicit `MatchState` value, with the ball-event log of each innings kept
as a list ordered by `event_seq`, exactly the order in which the source
reads events back (`ORDER BY event_seq`).  Machine floats of the source
are embedded as rationals, Python ints as `Int`/`Nat`, and fallible
operations return `Except String`.
-/

namespace PlayerRating

/-- Association-list lookup, mirroring a Python dict read: the first (and,
by construction, only) binding of a key wins. -/
def lookupA [BEq α] (m : List (α × β)) (k : α) : Option β :=
  match m with
  | [] => none
  | kv :: rest => if kv.1 == k then some kv.2 else lookupA rest k

/-- Association-list write, mirroring a Python dict write: an existing key
keeps its position and is overwritten, a new key is appended at the end
(insertion order). -/
def setA [BEq α] (m : List (α × β)) (k : α) (v : β) : List (α × β) :=
  match m with
  | [] => [(k, v)]
  | kv :: rest => if kv.1 == k then (k, v) :: rest else kv :: setA rest k v

/-- Dict read with a default, mirroring Python `dict.get(k, d)`. -/
def getA [BEq α] (m : List (α × β)) (k : α) (d : β) : β :=
  (lookupA m k).getD d

/-- Python `set.add`: insert an element only if it is not present yet. -/
def addUnique [BEq α] (l : List α) (x : α) : List α :=
  if l.contains x then l else l ++ [x]

/-- ASCII whitespace, the only whitespace the tool's token strings carry. -/
def isSpaceChar (c : Char) : Bool :=
  c = ' ' || c = '\t' || c = '\n' || c = '\r'

/-- Python `str.strip()` over the ASCII alphabet the tool uses. -/
def pyStrip (s : String) : String :=
  ⟨((s.data.dropWhile isSpaceChar).reverse.dropWhile isSpaceChar).reverse⟩

/-- Lower-case one ASCII character. -/
def lowerChar (c : Char) : Char :=
  if 'A' ≤ c ∧ c ≤ 'Z' then Char.ofNat (c.toNat + 32) else c

/-- Python `str.lower()` over the ASCII alphabet the tool uses. -/
def pyLower (s : String) : String :=
  ⟨s.data.map lowerChar⟩

/-! ## Ball-event ledger (`db.py`) -/

/-- `_normalize_extra_type` of `db.py`: empty input falls back to `none`
(the Python `or` on a falsy string), then strip/lowercase and check the
allowed set. -/
def normalizeExtraType (s : String) : Except String String :=
  let token := pyLower (pyStrip (if s = "" then "none" else s))
  if token = "none" ∨ token = "wide" ∨ token = "no_ball" ∨ token = "bye" ∨ token = "leg_bye"
  then Except.ok token
  else Except.error "Invalid extra_type"

/-- `_normalize_dismissal_type` of `db.py`. -/
def normalizeDismissalType (d : Option String) : Option String :=
  match d with
  | none => none
  | some s =>
    let t := pyLower (pyStrip s)
    if t = "" then none else some t

/-- One row of the `ball_events` table (columns that carry scoring data). -/
structure BallEvent where
  eventSeq : Nat
  overNo : Nat
  ballInOver : Nat
  legalBall : Bool
  strikerId : Nat
  nonStrikerId : Nat
  bowlerId : Nat
  runsOffBat : Int
  extras : Int
  extraType : String
  isWicket : Bool
  dismissalType : Option String
  dismissedPlayerId : Option Nat
  notes : Option String
deriving DecidableEq, Repr

/-- One row of the `innings` table, carrying its own slice of the event
log (`ball_events WHERE innings_id = ... ORDER BY event_seq`). -/
structure Innings where
  inningsNo : Nat
  battingTeamId : Nat
  bowlingTeamId : Nat
  totalRuns : Int
  wickets : Nat
  legalBalls : Nat
  status : String
  events : List BallEvent
deriving DecidableEq, Repr

/-- The stored state of one match: the `matches` row, its `match_squads`
rows (team id, player id) and its `innings` rows in creation order. -/
structure MatchState where
  totalOvers : Nat
  squads : List (Nat × Nat)
  innings : List Innings
  status : String
deriving DecidableEq, Repr

/-- `SUM(runs_off_bat + extras)` over an innings' events. -/
def sumRuns (es : List BallEvent) : Int :=
  es.foldl (fun a e => a + (e.runsOffBat + e.extras)) 0

/-- `SUM(CASE WHEN legal_ball = 1 THEN 1 ELSE 0 END)`. -/
def countLegal (es : List BallEvent) : Nat :=
  es.countP (fun e => e.legalBall)

/-- `SUM(CASE WHEN is_wicket = 1 THEN 1 ELSE 0 END)`. -/
def countWickets (es : List BallEvent) : Nat :=
  es.countP (fun e => e.isWicket)

/-- The per-innings step of `_recompute_match_state`: rewrite the running
totals from the full event log and set the innings status. -/
def recomputeInnings (totalOvers : Nat) (i : Innings) : Innings :=
  let tr := sumRuns i.events
  let lb := countLegal i.events
  let w := countWickets i.events
  let st := if 10 ≤ w ∨ totalOvers * 6 ≤ lb then "completed" else "in_progress"
  { i with totalRuns := tr, legalBalls := lb, wickets := w, status := st }

/-- Total number of ball events of the match. -/
def matchEventCount (l : List Innings) : Nat :=
  (l.map (fun i => i.events.length)).sum

/-- `_recompute_match_state` of `db.py`: recompute every innings, then set
the match status from the rewritten innings rows and the event count.
(The per-player stats tables are fully rewritten from the same log on
every call; they are embedded below as pure functions of the state.) -/
def recomputeMatch (s : MatchState) : MatchState :=
  let newInnings := s.innings.map (recomputeInnings s.totalOvers)
  let completedCount := newInnings.countP (fun i => i.status == "completed")
  let inningsCount := newInnings.length
  let eventCount := matchEventCount newInnings
  let st :=
    if 2 ≤ inningsCount ∧ 2 ≤ completedCount then "completed"
    else if 0 < eventCount then "live"
    else "scheduled"
  { s with innings := newInnings, status := st }

/-- `create_match_with_squads` of `db.py`, restricted to the data the
ledger later reads: the overs limit and the squad membership rows. -/
def createMatch (totalOvers : Int) (squads : List (Nat × Nat)) : Except String MatchState :=
  if totalOvers ≤ 0 then Except.error "Total overs must be greater than zero"
  else Except.ok { totalOvers := totalOvers.toNat, squads := squads, innings := [], status := "scheduled" }

/-- `get_or_create_innings` of `db.py`: an existing (match, innings-no)
pair is returned unchanged; otherwise a fresh in-progress innings row is
inserted and the match status is set to live. -/
def getOrCreateInnings (s : MatchState) (inningsNo : Int) (bt bw : Nat) :
    Except String MatchState :=
  if inningsNo ≤ 0 then Except.error "innings_no must be greater than zero"
  else if bt = bw then Except.error "Batting and bowling team must be different"
  else if s.innings.any (fun i => i.inningsNo == inningsNo.toNat) then Except.ok s
  else Except.ok { s with
    innings := s.innings ++
      [{ inningsNo := inningsNo.toNat, battingTeamId := bt, bowlingTeamId := bw,
         totalRuns := 0, wickets := 0, legalBalls := 0,
         status := "in_progress", events := [] }],
    status := "live" }

/-- The innings row selected by `WHERE i.id = ? AND i.match_id = ?`
(innings are addressed by their per-match number here). -/
def findInnings (l : List Innings) (no : Nat) : Option Innings :=
  l.find? (fun i => i.inningsNo == no)

/-- The `is_in_match_team` squad-membership probe of `record_ball_event`. -/
def inSquad (squads : List (Nat × Nat)) (teamId playerId : Nat) : Bool :=
  squads.any (fun tp => tp.1 == teamId && tp.2 == playerId)

/-- `COALESCE(MAX(event_seq), 0)` over an innings' events. -/
def maxSeq (es : List BallEvent) : Nat :=
  es.foldl (fun a e => max a e.eventSeq) 0

/-- The caller-supplied arguments of `record_ball_event`. -/
structure BallInput where
  inningsNo : Nat
  strikerId : Nat
  nonStrikerId : Nat
  bowlerId : Nat
  runsOffBat : Int
  extras : Int
  extraType : String
  isWicket : Bool
  dismissalType : Option String
  dismissedPlayerId : Option Nat
  notes : Option String
deriving DecidableEq, Repr

/-- `notes.strip() if isinstance(notes, str) and notes.strip() else None`. -/
def normalizeNotes (n : Option String) : Option String :=
  match n with
  | none => none
  | some s => let t := pyStrip s; if t = "" then none else some t

/-- The successful tail of `record_ball_event`: insert the derived event
row into its innings and recompute the match. -/
def appendEventState (s : MatchState) (inn : Innings) (ev : BallEvent) : MatchState :=
  recomputeMatch { s with innings := s.innings.map (fun i =>
    if i.inningsNo == inn.inningsNo then { i with events := i.events ++ [ev] } else i) }

/-- The successful tail of `undo_last_ball`: delete the event whose
`event_seq` equals the innings' current maximum and recompute the match. -/
def eraseTopState (s : MatchState) (no : Nat) (m : Nat) : MatchState :=
  recomputeMatch { s with innings := s.innings.map (fun i =>
    if i.inningsNo == no then { i with events := i.events.eraseP (fun e => e.eventSeq == m) } else i) }

/-- `record_ball_event` of `db.py`: the full validation chain in source
order, then the insert of the derived event row followed by the match
recomputation.  An error leaves the state untouched (the source rolls the
transaction back). -/
def derivedEvent (inp : BallInput) (etype : String) (inn : Innings) : BallEvent :=
  let dtype := normalizeDismissalType inp.dismissalType
  let legalBall : Bool := !(etype == "wide" || etype == "no_ball")
  let nextSeq := maxSeq inn.events + 1
  let overNo := if legalBall then ((inn.legalBalls + 1) - 1) / 6 else inn.legalBalls / 6
  let ballInOver :=
    if legalBall then (((inn.legalBalls + 1) - 1) % 6) + 1 else (inn.legalBalls % 6) + 1
  let storedDismissed :=
    match inp.dismissedPlayerId with
    | some d => if d = 0 then none else some d
    | none => none
  { eventSeq := nextSeq, overNo := overNo, ballInOver := ballInOver,
    legalBall := legalBall, strikerId := inp.strikerId,
    nonStrikerId := inp.nonStrikerId, bowlerId := inp.bowlerId,
    runsOffBat := inp.runsOffBat, extras := inp.extras, extraType := etype,
    isWicket := inp.isWicket, dismissalType := dtype,
    dismissedPlayerId := storedDismissed, notes := normalizeNotes inp.notes }

/-- The argument validations of `record_ball_event` that run before the
innings row is read, in source order; the normalized extra type is passed
on. -/
def validateEventFields (inp : BallInput) : Except String String :=
  if inp.strikerId = inp.nonStrikerId then
    Except.error "Striker and non-striker must be different players"
  else if inp.runsOffBat < 0 then Except.error "runs_off_bat cannot be negative"
  else if inp.extras < 0 then Except.error "extras cannot be negative"
  else
    match normalizeExtraType inp.extraType with
    | Except.error e => Except.error e
    | Except.ok etype =>
      if etype = "none" ∧ 0 < inp.extras then
        Except.error "extras must be 0 when extra_type is none"
      else if etype = "wide" ∧ 0 < inp.runsOffBat then
        Except.error "runs_off_bat must be 0 for wides"
      else if (etype = "bye" ∨ etype = "leg_bye") ∧ 0 < inp.runsOffBat then
        Except.error "runs_off_bat must be 0 for byes and leg byes"
      else Except.ok etype

/-- The innings-level part of `record_ball_event`: completion and limit
guards, squad-membership checks, then the insert of the derived row and
the recomputation. -/
def recordBallOnInnings (s : MatchState) (inp : BallInput) (etype : String) (inn : Innings) :
    Except String MatchState :=
  if inn.status = "completed" then Except.error "Innings already completed"
  else if 10 ≤ inn.wickets then Except.error "Innings already all out"
  else if s.totalOvers * 6 ≤ inn.legalBalls then
    Except.error "Innings already reached max overs"
  else if !(inSquad s.squads inn.battingTeamId inp.strikerId) then
    Except.error "Striker is not in batting team squad"
  else if !(inSquad s.squads inn.battingTeamId inp.nonStrikerId) then
    Except.error "Non-striker is not in batting team squad"
  else if !(inSquad s.squads inn.bowlingTeamId inp.bowlerId) then
    Except.error "Bowler is not in bowling team squad"
  else if (match inp.dismissedPlayerId with
           | some d => !(inSquad s.squads inn.battingTeamId d)
           | none => false) then
    Except.error "Dismissed player is not in batting team squad"
  else Except.ok (appendEventState s inn (derivedEvent inp etype inn))

/-- `record_ball_event` of `db.py`: argument validation, innings fetch,
innings-level validation, insert, recompute.  An error leaves the state
untouched (the source rolls the transaction back). -/
def recordBallEvent (s : MatchState) (inp : BallInput) : Except String MatchState :=
  match validateEventFields inp with
  | Except.error e => Except.error e
  | Except.ok etype =>
    match findInnings s.innings inp.inningsNo with
    | none => Except.error "Invalid innings for match"
    | some inn => recordBallOnInnings s inp etype inn

/-- `undo_last_ball` of `db.py`: delete the single event with the highest
`event_seq` from the innings and recompute; report whether a row was
deleted. -/
def undoLastBall (s : MatchState) (no : Nat) : Bool × MatchState :=
  match findInnings s.innings no with
  | none => (false, s)
  | some inn =>
    if inn.events.isEmpty then (false, s)
    else (true, eraseTopState s no (maxSeq inn.events))

/-- States reachable through the public ledger operations of `db.py`. -/
inductive Reachable : MatchState → Prop
  | create (totalOvers : Int) (squads : List (Nat × Nat)) (s : MatchState) :
      createMatch totalOvers squads = Except.ok s → Reachable s
  | createInnings (s s₂ : MatchState) (inningsNo : Int) (bt bw : Nat) :
      Reachable s → getOrCreateInnings s inningsNo bt bw = Except.ok s₂ → Reachable s₂
  | append (s s₂ : MatchState) (inp : BallInput) :
      Reachable s → recordBallEvent s inp = Except.ok s₂ → Reachable s₂
  | undo (s : MatchState) (no : Nat) :
      Reachable s → Reachable (undoLastBall s no).2

/-! ## Ledger invariants -/

/-- An event list whose `event_seq` values are exactly `1..N`. -/
def seqsOkL (es : List BallEvent) : Prop :=
  es.map (fun e => e.eventSeq) = List.range' 1 es.length

/-- The `event_seq` column of an innings is exactly `1..N`. -/
def seqsOk (i : Innings) : Prop :=
  seqsOkL i.events

/-- The stored innings row agrees with its event log: totals are the
recomputed ones, the status matches the completion rule, and the limits
hold. -/
def inningsGood (overs : Nat) (i : Innings) : Prop :=
  i.totalRuns = sumRuns i.events ∧
  i.legalBalls = countLegal i.events ∧
  i.wickets = countWickets i.events ∧
  i.status = (if 10 ≤ countWickets i.events ∨ overs * 6 ≤ countLegal i.events
              then "completed" else "in_progress") ∧
  i.wickets ≤ 10 ∧ i.legalBalls ≤ overs * 6 ∧ seqsOk i

/-- The ledger invariant of one match. -/
def Inv (s : MatchState) : Prop :=
  1 ≤ s.totalOvers ∧
  (s.innings.map (fun i => i.inningsNo)).Nodup ∧
  ∀ i ∈ s.innings, inningsGood s.totalOvers i

theorem foldl_max_range (n : Nat) : List.foldl max 0 (List.range' 1 n) = n := by
  induction n with
  | zero => rfl
  | succ m ih =>
    rw [List.range'_concat, List.foldl_append, ih]
    simp
    omega

theorem maxSeq_eq_length (es : List BallEvent)
    (h : es.map (fun e => e.eventSeq) = List.range' 1 es.length) :
    maxSeq es = es.length := by
  have hm : maxSeq es = List.foldl max 0 (es.map (fun e => e.eventSeq)) := by
    rw [List.foldl_map]
    rfl
  rw [hm, h, foldl_max_range]

theorem eraseTop_aux (es : List BallEvent) : ∀ k : Nat,
    es.map (fun e => e.eventSeq) = List.range' (k + 1) es.length →
    es.eraseP (fun e => e.eventSeq == k + es.length) = es.dropLast := by
  induction es with
  | nil => intro k _; rfl
  | cons e es ih =>
    intro k h
    simp only [List.map_cons, List.length_cons, List.range'_succ, List.cons.injEq] at h
    obtain ⟨he, hes⟩ := h
    cases es with
    | nil =>
      simp [List.eraseP_cons, he]
    | cons e2 es2 =>
      have hpred : (fun x : BallEvent => x.eventSeq == k + (e :: e2 :: es2).length)
          = (fun x : BallEvent => x.eventSeq == (k + 1) + (e2 :: es2).length) := by
        funext x
        have harith : k + (e :: e2 :: es2).length = (k + 1) + (e2 :: es2).length := by
          simp only [List.length_cons]
          omega
        rw [harith]
      have hne : (e.eventSeq == (k + 1) + (e2 :: es2).length) = false := by
        rw [he]
        simp only [List.length_cons, beq_eq_false_iff_ne, ne_eq]
        omega
      have hr : (e2 :: es2).map (fun x => x.eventSeq) = List.range' ((k + 1) + 1) (e2 :: es2).length := by
        simpa using hes
      calc (e :: e2 :: es2).eraseP (fun x => x.eventSeq == k + (e :: e2 :: es2).length)
          = (e :: e2 :: es2).eraseP (fun x => x.eventSeq == (k + 1) + (e2 :: es2).length) := by
            rw [hpred]
        _ = e :: ((e2 :: es2).eraseP (fun x => x.eventSeq == (k + 1) + (e2 :: es2).length)) := by
            rw [List.eraseP_cons, hne]
            rfl
        _ = e :: (e2 :: es2).dropLast := by rw [ih (k + 1) hr]
        _ = (e :: e2 :: es2).dropLast := rfl

theorem eraseTop_eq_dropLast (es : List BallEvent) (h : seqsOkL es) :
    es.eraseP (fun e => e.eventSeq == maxSeq es) = es.dropLast := by
  have hm : maxSeq es = es.length := maxSeq_eq_length es h
  have h0 : es.map (fun e => e.eventSeq) = List.range' (0 + 1) es.length := by simpa using h
  have := eraseTop_aux es 0 h0
  simpa [hm] using this

theorem seqsOkL_append (es : List BallEvent) (ev : BallEvent) (h : seqsOkL es)
    (hev : ev.eventSeq = maxSeq es + 1) : seqsOkL (es ++ [ev]) := by
  unfold seqsOkL at h ⊢
  have hm : maxSeq es = es.length := maxSeq_eq_length es h
  rw [List.map_append, h, List.length_append]
  simp only [List.map_cons, List.map_nil, List.length_cons, List.length_nil]
  rw [List.range'_concat, hev, hm]
  simp
  omega

theorem seqsOkL_dropLast (es : List BallEvent) (h : seqsOkL es) : seqsOkL es.dropLast := by
  unfold seqsOkL at h ⊢
  rw [List.map_dropLast, h, List.length_dropLast]
  cases hn : es.length with
  | zero => simp
  | succ m =>
    rw [List.range'_concat]
    simp

theorem countP_dropLast_le (es : List BallEvent) (p : BallEvent → Bool) :
    es.dropLast.countP p ≤ es.countP p :=
  (List.dropLast_sublist es).countP_le p

theorem countP_append_singleton (es : List BallEvent) (ev : BallEvent) (p : BallEvent → Bool) :
    (es ++ [ev]).countP p = es.countP p + (if p ev then 1 else 0) := by
  rw [List.countP_append]
  simp [List.countP_cons]

/-- In a list of innings with pairwise distinct numbers, `find?` by the
number of a member returns that member. -/
theorem find_self (l : List Innings) (hn : (l.map (fun i => i.inningsNo)).Nodup)
    (i : Innings) (hi : i ∈ l) : findInnings l i.inningsNo = some i := by
  induction l with
  | nil => cases hi
  | cons j l ih =>
    simp only [List.map_cons, List.nodup_cons] at hn
    obtain ⟨hj, hl⟩ := hn
    rcases List.mem_cons.mp hi with hi | hi
    · subst hi
      simp [findInnings, List.find?]
    · have hne : j.inningsNo ≠ i.inningsNo := by
        intro hcontra
        exact hj (hcontra ▸ List.mem_map_of_mem (fun x => x.inningsNo) hi)
      simp only [findInnings, List.find?]
      have : (i.inningsNo == j.inningsNo) = false := by
        simp only [beq_eq_false_iff_ne, ne_eq]
        omega
      rw [show (j.inningsNo == i.inningsNo) = false by simp only [beq_eq_false_iff_ne, ne_eq]; omega]
      exact ih hl hi

theorem inningsNo_recompute (overs : Nat) (i : Innings) :
    (recomputeInnings overs i).inningsNo = i.inningsNo := rfl

/-- Recomputation establishes the stored-equals-derived half of the
invariant; the count bounds and sequence shape of the logs are all it
needs. -/
theorem inv_recompute (s : MatchState) (h1 : 1 ≤ s.totalOvers)
    (h2 : (s.innings.map (fun i => i.inningsNo)).Nodup)
    (h3 : ∀ i ∈ s.innings,
      countWickets i.events ≤ 10 ∧ countLegal i.events ≤ s.totalOvers * 6 ∧ seqsOk i) :
    Inv (recomputeMatch s) := by
  refine ⟨h1, ?_, ?_⟩
  · have : (recomputeMatch s).innings.map (fun i => i.inningsNo)
        = s.innings.map (fun i => i.inningsNo) := by
      simp only [recomputeMatch, List.map_map]
      exact List.map_congr_left (fun a _ => rfl)
    rw [this]
    exact h2
  · intro i hi
    simp only [recomputeMatch, List.mem_map] at hi
    obtain ⟨j, hj, rfl⟩ := hi
    obtain ⟨hw, hl, hsq⟩ := h3 j hj
    exact ⟨rfl, rfl, rfl, rfl, hw, hl, hsq⟩

theorem map_no_update (l : List Innings) (f : Innings → Innings)
    (hf : ∀ i, (f i).inningsNo = i.inningsNo) :
    (l.map f).map (fun i => i.inningsNo) = l.map (fun i => i.inningsNo) := by
  rw [List.map_map]
  exact List.map_congr_left (fun a _ => hf a)

/-- A validated insert preserves the invariant: the guards of
`record_ball_event` leave room for the one wicket / one legal ball the new
event can add, and `max(event_seq) + 1` extends the gap-free sequence. -/
theorem inv_append_core (s : MatchState) (inn : Innings) (ev : BallEvent)
    (hs : Inv s) (hmem : inn ∈ s.innings)
    (hw : inn.wickets < 10) (hl : inn.legalBalls < s.totalOvers * 6)
    (hseq : ev.eventSeq = maxSeq inn.events + 1) :
    Inv (appendEventState s inn ev) := by
  obtain ⟨h1, h2, h3⟩ := hs
  unfold appendEventState
  apply inv_recompute
  · exact h1
  · rw [map_no_update]
    · exact h2
    · intro i
      dsimp only
      split <;> rfl
  · intro j hj
    rw [List.mem_map] at hj
    obtain ⟨a, ha, rfl⟩ := hj
    dsimp only
    by_cases hb : (a.inningsNo == inn.inningsNo) = true
    · have haeq : a = inn := by
        apply List.inj_on_of_nodup_map h2 ha hmem
        simpa using hb
      subst haeq
      obtain ⟨_, hleq, hweq, _, _, _, hsq⟩ := h3 a ha
      rw [if_pos hb]
      dsimp only
      refine ⟨?_, ?_, ?_⟩
      · have : countWickets (a.events ++ [ev]) ≤ countWickets a.events + 1 := by
          unfold countWickets
          rw [countP_append_singleton]
          split <;> omega
        omega
      · have : countLegal (a.events ++ [ev]) ≤ countLegal a.events + 1 := by
          unfold countLegal
          rw [countP_append_singleton]
          split <;> omega
        omega
      · exact seqsOkL_append a.events ev hsq hseq
    · rw [if_neg hb]
      obtain ⟨_, hleq, hweq, _, hwb, hlb, hsq⟩ := h3 a ha
      exact ⟨by omega, by omega, hsq⟩

/-- A LIFO delete preserves the invariant: dropping the top-sequence event
is dropping the last event of a gap-free log. -/
theorem inv_erase_core (s : MatchState) (inn : Innings)
    (hs : Inv s) (hmem : inn ∈ s.innings) :
    Inv (eraseTopState s inn.inningsNo (maxSeq inn.events)) := by
  obtain ⟨h1, h2, h3⟩ := hs
  unfold eraseTopState
  apply inv_recompute
  · exact h1
  · rw [map_no_update]
    · exact h2
    · intro i
      dsimp only
      split <;> rfl
  · intro j hj
    rw [List.mem_map] at hj
    obtain ⟨a, ha, rfl⟩ := hj
    dsimp only
    by_cases hb : (a.inningsNo == inn.inningsNo) = true
    · have haeq : a = inn := by
        apply List.inj_on_of_nodup_map h2 ha hmem
        simpa using hb
      subst haeq
      obtain ⟨_, hleq, hweq, _, hwb, hlb, hsq⟩ := h3 a ha
      rw [if_pos hb]
      dsimp only
      rw [eraseTop_eq_dropLast a.events hsq]
      refine ⟨?_, ?_, seqsOkL_dropLast a.events hsq⟩
      · have := countP_dropLast_le a.events (fun e => e.isWicket)
        unfold countWickets at hweq ⊢
        omega
      · have := countP_dropLast_le a.events (fun e => e.legalBall)
        unfold countLegal at hleq ⊢
        omega
    · rw [if_neg hb]
      obtain ⟨_, hleq, hweq, _, hwb, hlb, hsq⟩ := h3 a ha
      exact ⟨by omega, by omega, hsq⟩

theorem inv_createMatch (overs : Int) (sq : List (Nat × Nat)) (s : MatchState)
    (h : createMatch overs sq = Except.ok s) : Inv s := by
  unfold createMatch at h
  split at h
  · exact Except.noConfusion h
  · rename_i hpos
    injection h with h
    subst h
    refine ⟨?_, by simp, by intro i hi; cases hi⟩
    simp only
    omega

theorem inv_getOrCreateInnings (s s₂ : MatchState) (no : Int) (bt bw : Nat)
    (hs : Inv s) (h : getOrCreateInnings s no bt bw = Except.ok s₂) : Inv s₂ := by
  obtain ⟨h1, h2, h3⟩ := hs
  unfold getOrCreateInnings at h
  split at h
  · exact Except.noConfusion h
  split at h
  · exact Except.noConfusion h
  split at h
  · injection h with h
    subst h
    exact ⟨h1, h2, h3⟩
  · rename_i hany
    injection h with h
    subst h
    refine ⟨h1, ?_, ?_⟩
    · simp only [List.map_append, List.map_cons, List.map_nil]
      apply List.Nodup.append h2 (List.nodup_singleton _)
      intro a ha hb
      simp only [List.mem_singleton] at hb
      subst hb
      rw [List.mem_map] at ha
      obtain ⟨i, hi, hino⟩ := ha
      apply hany
      rw [List.any_eq_true]
      exact ⟨i, hi, by simpa using hino⟩
    · intro i hi
      rcases List.mem_append.mp hi with hi | hi
      · exact h3 i hi
      · simp only [List.mem_singleton] at hi
        subst hi
        refine ⟨rfl, rfl, rfl, ?_, Nat.zero_le _, Nat.zero_le _, by rfl⟩
        have hcond : ¬ (10 ≤ countWickets ([] : List BallEvent) ∨
            s.totalOvers * 6 ≤ countLegal ([] : List BallEvent)) := by
          push_neg
          refine ⟨by simp [countWickets], ?_⟩
          simp only [countLegal, List.countP_nil]
          omega
        exact (if_neg hcond).symm

theorem inv_recordBallOnInnings (s s₂ : MatchState) (inp : BallInput) (etype : String)
    (inn : Innings) (hs : Inv s) (hmem : inn ∈ s.innings)
    (h : recordBallOnInnings s inp etype inn = Except.ok s₂) : Inv s₂ := by
  unfold recordBallOnInnings at h
  split at h
  · exact Except.noConfusion h
  split at h
  · exact Except.noConfusion h
  split at h
  · exact Except.noConfusion h
  split at h
  · exact Except.noConfusion h
  split at h
  · exact Except.noConfusion h
  split at h
  · exact Except.noConfusion h
  split at h
  · exact Except.noConfusion h
  injection h with h
  subst h
  rename_i hstat hwick hlegal h4 h5 h6 h7
  exact inv_append_core s inn _ hs hmem (by omega) (by omega) rfl

theorem inv_recordBallEvent (s s₂ : MatchState) (inp : BallInput)
    (hs : Inv s) (h : recordBallEvent s inp = Except.ok s₂) : Inv s₂ := by
  unfold recordBallEvent at h
  split at h
  · exact Except.noConfusion h
  rename_i etype hety
  split at h
  · exact Except.noConfusion h
  rename_i inn hfind
  exact inv_recordBallOnInnings s s₂ inp etype inn hs (List.mem_of_find?_eq_some hfind) h

theorem inv_undoLastBall (s : MatchState) (no : Nat) (hs : Inv s) :
    Inv (undoLastBall s no).2 := by
  unfold undoLastBall
  split
  · exact hs
  rename_i inn hfind
  split
  · exact hs
  · have hno : inn.inningsNo = no := by
      have := List.find?_some hfind
      simpa using this
    subst hno
    exact inv_erase_core s inn hs (List.mem_of_find?_eq_some hfind)

/-- Every state reachable through the ledger operations satisfies the
ledger invariant. -/
theorem inv_of_reachable {s : MatchState} (h : Reachable s) : Inv s := by
  induction h with
  | create overs sq s h => exact inv_createMatch overs sq s h
  | createInnings s s₂ no bt bw _ h ih => exact inv_getOrCreateInnings s s₂ no bt bw ih h
  | append s s₂ inp _ h ih => exact inv_recordBallEvent s s₂ inp ih h
  | undo s no _ ih => exact inv_undoLastBall s no ih

theorem recordBallEvent_err_of_validate (s : MatchState) (inp : BallInput) (e : String)
    (hval : validateEventFields inp = Except.error e) :
    recordBallEvent s inp = Except.error e := by
  unfold recordBallEvent
  rw [hval]

theorem recordBallEvent_eq_onInnings (s : MatchState) (inp : BallInput) (etype : String)
    (hval : validateEventFields inp = Except.ok etype)
    (inn : Innings) (hfind : findInnings s.innings inp.inningsNo = some inn) :
    recordBallEvent s inp = recordBallOnInnings s inp etype inn := by
  unfold recordBallEvent
  rw [hval, hfind]

theorem recordBallOnInnings_completed (s : MatchState) (inp : BallInput) (etype : String)
    (inn : Innings) (hc : inn.status = "completed") :
    recordBallOnInnings s inp etype inn = Except.error "Innings already completed" := by
  unfold recordBallOnInnings
  rw [if_pos hc]

/-- C1: on every reachable state, every innings satisfies
`wickets ≤ 10` and `legal_balls ≤ total_overs*6`, its status is
`completed` exactly when `wickets = 10` or `legal_balls = total_overs*6`,
and once completed (equivalently, once either limit is reached) every
further `record_ball_event` against it returns an error, writing
nothing. -/
theorem C1_innings_limits_and_completion (s : MatchState) (hs : Reachable s) :
    ∀ i ∈ s.innings,
      i.wickets ≤ 10 ∧ i.legalBalls ≤ s.totalOvers * 6 ∧
      (i.status = "completed" ↔ (i.wickets = 10 ∨ i.legalBalls = s.totalOvers * 6)) ∧
      ((i.status = "completed" ∨ i.wickets = 10 ∨ i.legalBalls = s.totalOvers * 6) →
        ∀ inp : BallInput, inp.inningsNo = i.inningsNo →
          ∃ msg, recordBallEvent s inp = Except.error msg) := by
  obtain ⟨h1, h2, h3⟩ := inv_of_reachable hs
  intro i hi
  obtain ⟨htr, hle, hwe, hst, hwb, hlb, hsq⟩ := h3 i hi
  have hiff : i.status = "completed" ↔ (i.wickets = 10 ∨ i.legalBalls = s.totalOvers * 6) := by
    by_cases hcond : 10 ≤ countWickets i.events ∨ s.totalOvers * 6 ≤ countLegal i.events
    · rw [hst, if_pos hcond]
      constructor
      · intro _
        rcases hcond with hc | hc
        · left
          omega
        · right
          omega
      · intro _
        rfl
    · rw [hst, if_neg hcond]
      push_neg at hcond
      constructor
      · intro hcontra
        exact absurd hcontra (by decide)
      · intro hd
        exfalso
        rcases hd with hd | hd <;> omega
  refine ⟨hwb, hlb, hiff, ?_⟩
  intro hdone inp hinp
  have hcomp : i.status = "completed" := by
    rcases hdone with hd | hd | hd
    · exact hd
    · exact hiff.mpr (Or.inl hd)
    · exact hiff.mpr (Or.inr hd)
  cases hval : validateEventFields inp with
  | error e => exact ⟨e, recordBallEvent_err_of_validate s inp e hval⟩
  | ok etype =>
    refine ⟨"Innings already completed", ?_⟩
    have hfind : findInnings s.innings inp.inningsNo = some i := by
      rw [hinp]
      exact find_self s.innings h2 i hi
    rw [recordBallEvent_eq_onInnings s inp etype hval i hfind]
    exact recordBallOnInnings_completed s inp etype i hcomp

/-- C2: on every reachable state, the `event_seq` values of every innings
are exactly `1..N` in order, where `N` is the innings' current event
count — append assigns `max(event_seq)+1` and undo removes the highest,
so the sequence stays gap-free through any interleaving. -/
theorem C2_event_seq_gap_free (s : MatchState) (hs : Reachable s) :
    ∀ i ∈ s.innings,
      i.events.map (fun e => e.eventSeq) = List.range' 1 i.events.length :=
  fun i hi => ((inv_of_reachable hs).2.2 i hi).2.2.2.2.2.2

/-- Concrete squad rows used by the witness states. -/
def wSquads : List (Nat × Nat) := [(1, 10), (1, 11), (2, 20)]

/-- A concrete one-innings state reached by `create_match_with_squads`
followed by `get_or_create_innings`. -/
def wState1 : MatchState :=
  { totalOvers := 1, squads := wSquads,
    innings := [{ inningsNo := 1, battingTeamId := 1, bowlingTeamId := 2,
                  totalRuns := 0, wickets := 0, legalBalls := 0,
                  status := "in_progress", events := [] }],
    status := "live" }

/-- The single innings row of `wState1`. -/
def wInnings1 : Innings :=
  { inningsNo := 1, battingTeamId := 1, bowlingTeamId := 2,
    totalRuns := 0, wickets := 0, legalBalls := 0,
    status := "in_progress", events := [] }

theorem wState1_reachable : Reachable wState1 :=
  Reachable.createInnings _ wState1 1 1 2 (Reachable.create 1 wSquads _ rfl) rfl

theorem C1_witness :
    wInnings1 ∈ wState1.innings ∧
    (wInnings1.wickets ≤ 10 ∧ wInnings1.legalBalls ≤ wState1.totalOvers * 6 ∧
     (wInnings1.status = "completed" ↔
       (wInnings1.wickets = 10 ∨ wInnings1.legalBalls = wState1.totalOvers * 6)) ∧
     ((wInnings1.status = "completed" ∨ wInnings1.wickets = 10 ∨
         wInnings1.legalBalls = wState1.totalOvers * 6) →
       ∀ inp : BallInput, inp.inningsNo = wInnings1.inningsNo →
         ∃ msg, recordBallEvent wState1 inp = Except.error msg)) :=
  ⟨by decide,
   C1_innings_limits_and_completion wState1 wState1_reachable wInnings1 (by decide)⟩

theorem C2_witness :
    wInnings1 ∈ wState1.innings ∧
    wInnings1.events.map (fun e => e.eventSeq) = List.range' 1 wInnings1.events.length :=
  ⟨by decide, C2_event_seq_gap_free wState1 wState1_reachable wInnings1 (by decide)⟩

/-! ## C3: the overs=2 scenario -/

def c3Squads : List (Nat × Nat) := [(1, 10), (1, 11), (2, 20)]

/-- The scenario's events: striker A (id 10), non-striker id 11, bowler
id 20 throughout. -/
def c3Ball (runs extras : Int) (et : String) : BallInput :=
  { inningsNo := 1, strikerId := 10, nonStrikerId := 11, bowlerId := 20,
    runsOffBat := runs, extras := extras, extraType := et, isWicket := false,
    dismissalType := none, dismissedPlayerId := none, notes := none }

def c3After1 : Except String MatchState :=
  ((createMatch 2 c3Squads).bind (fun s => getOrCreateInnings s 1 1 2)).bind
    (fun s => recordBallEvent s (c3Ball 1 0 "none"))

def c3After2 : Except String MatchState :=
  c3After1.bind (fun s => recordBallEvent s (c3Ball 0 1 "wide"))

def c3After3 : Except String MatchState :=
  c3After2.bind (fun s => recordBallEvent s (c3Ball 6 0 "none"))

def c3AfterUndo : Except String MatchState :=
  c3After3.map (fun s => (undoLastBall s 1).2)

/-- (total_runs, legal_balls) of every innings of a ledger result. -/
def inningsTotals (r : Except String MatchState) : Option (List (Int × Nat)) :=
  r.toOption.map (fun s => s.innings.map (fun i => (i.totalRuns, i.legalBalls)))

/-- C3 counterexample: in the overs=2 scenario (1 run off bat; wide with
one extra; 6 off bat; one undo), the recomputed innings after the undo
has `total_runs = 2` (the run off the bat plus the wide extra), not the
claimed `total_runs = 1`. -/
theorem C3_scenario_counterexample :
    inningsTotals c3AfterUndo ≠ some [(1, 1)] ∧
    inningsTotals c3AfterUndo = some [(2, 1)] := by
  constructor
  · decide
  · rfl

/-- C3 (amended): in the scenario, `legal_balls = 1` after the second
event; `legal_balls = 2` and `total_runs = 8` after the third; and after
one undo `total_runs = 2` and `legal_balls = 1`. -/
theorem C3_scenario_amended :
    inningsTotals c3After2 = some [(2, 1)] ∧
    inningsTotals c3After3 = some [(8, 2)] ∧
    inningsTotals c3AfterUndo = some [(2, 1)] := by
  refine ⟨?_, ?_, ?_⟩ <;> rfl

/-! ## C4: match status after recomputation -/

def c4Squads : List (Nat × Nat) := [(1, 10), (1, 11), (2, 20), (2, 21)]

def c4BallA : BallInput :=
  { inningsNo := 1, strikerId := 10, nonStrikerId := 11, bowlerId := 20,
    runsOffBat := 0, extras := 0, extraType := "none", isWicket := false,
    dismissalType := none, dismissedPlayerId := none, notes := none }

def c4BallB : BallInput :=
  { inningsNo := 2, strikerId := 20, nonStrikerId := 21, bowlerId := 10,
    runsOffBat := 0, extras := 0, extraType := "none", isWicket := false,
    dismissalType := none, dismissedPlayerId := none, notes := none }

def c4BallC : BallInput :=
  { inningsNo := 3, strikerId := 10, nonStrikerId := 11, bowlerId := 20,
    runsOffBat := 0, extras := 0, extraType := "none", isWicket := false,
    dismissalType := none, dismissedPlayerId := none, notes := none }

/-- A full operation chain of an overs=1 match: complete innings 1 and 2
with six legal balls each, create a third innings (the source never
limits `innings_no` to 2), then score one ball in it. -/
def c4Chain : Except String MatchState :=
  (createMatch 1 c4Squads).bind (fun s => getOrCreateInnings s 1 1 2) |>.bind
  (fun s => recordBallEvent s c4BallA) |>.bind (fun s => recordBallEvent s c4BallA) |>.bind
  (fun s => recordBallEvent s c4BallA) |>.bind (fun s => recordBallEvent s c4BallA) |>.bind
  (fun s => recordBallEvent s c4BallA) |>.bind (fun s => recordBallEvent s c4BallA) |>.bind
  (fun s => getOrCreateInnings s 2 2 1) |>.bind
  (fun s => recordBallEvent s c4BallB) |>.bind (fun s => recordBallEvent s c4BallB) |>.bind
  (fun s => recordBallEvent s c4BallB) |>.bind (fun s => recordBallEvent s c4BallB) |>.bind
  (fun s => recordBallEvent s c4BallB) |>.bind (fun s => recordBallEvent s c4BallB) |>.bind
  (fun s => getOrCreateInnings s 3 1 2) |>.bind
  (fun s => recordBallEvent s c4BallC)

/-- The state at the end of `c4Chain` (the chain succeeds). -/
def c4State : MatchState := c4Chain.toOption.getD wState1

theorem c4State_reachable : Reachable c4State := by
  have h0 := Reachable.create 1 c4Squads _ rfl
  have h1 := Reachable.createInnings _ _ 1 1 2 h0 rfl
  have h2 := Reachable.append _ _ c4BallA h1 rfl
  have h3 := Reachable.append _ _ c4BallA h2 rfl
  have h4 := Reachable.append _ _ c4BallA h3 rfl
  have h5 := Reachable.append _ _ c4BallA h4 rfl
  have h6 := Reachable.append _ _ c4BallA h5 rfl
  have h7 := Reachable.append _ _ c4BallA h6 rfl
  have h8 := Reachable.createInnings _ _ 2 2 1 h7 rfl
  have h9 := Reachable.append _ _ c4BallB h8 rfl
  have h10 := Reachable.append _ _ c4BallB h9 rfl
  have h11 := Reachable.append _ _ c4BallB h10 rfl
  have h12 := Reachable.append _ _ c4BallB h11 rfl
  have h13 := Reachable.append _ _ c4BallB h12 rfl
  have h14 := Reachable.append _ _ c4BallB h13 rfl
  have h15 := Reachable.createInnings _ _ 3 1 2 h14 rfl
  have h16 := Reachable.append _ _ c4BallC h15 rfl
  exact h16

/-- C4 counterexample: a reachable state whose last action was a
recomputing append has status `completed` with three innings, only two of
them completed — refuting "completed iff exactly 2 innings and both
completed". -/
theorem C4_match_status_counterexample :
    Reachable c4State ∧
    c4State.status = "completed" ∧
    c4State.innings.length = 3 ∧
    ¬(c4State.status = "completed" ↔
        (c4State.innings.length = 2 ∧ ∀ i ∈ c4State.innings, i.status = "completed")) := by
  refine ⟨c4State_reachable, ?_, ?_, ?_⟩
  · rfl
  · rfl
  · decide

theorem statusSpec (ic cc ec : Nat) :
    ((if 2 ≤ ic ∧ 2 ≤ cc then "completed" else if 0 < ec then "live" else "scheduled")
        = "completed" ↔ (2 ≤ ic ∧ 2 ≤ cc)) ∧
    ((if 2 ≤ ic ∧ 2 ≤ cc then "completed" else if 0 < ec then "live" else "scheduled")
        = "live" ↔ ¬(2 ≤ ic ∧ 2 ≤ cc) ∧ 0 < ec) ∧
    ((if 2 ≤ ic ∧ 2 ≤ cc then "completed" else if 0 < ec then "live" else "scheduled")
        = "scheduled" ↔ ¬(2 ≤ ic ∧ 2 ≤ cc) ∧ ec = 0) := by
  by_cases hA : 2 ≤ ic ∧ 2 ≤ cc
  · rw [if_pos hA]
    refine ⟨⟨fun _ => hA, fun _ => rfl⟩, ?_, ?_⟩
    · exact ⟨fun h => absurd h (by decide), fun h => absurd hA h.1⟩
    · exact ⟨fun h => absurd h (by decide), fun h => absurd hA h.1⟩
  · rw [if_neg hA]
    by_cases hB : 0 < ec
    · rw [if_pos hB]
      refine ⟨⟨fun h => absurd h (by decide), fun h => absurd h hA⟩, ?_, ?_⟩
      · exact ⟨fun _ => ⟨hA, hB⟩, fun _ => rfl⟩
      · refine ⟨fun h => absurd h (by decide), fun h => ?_⟩
        exact absurd hB (by omega)
    · rw [if_neg hB]
      refine ⟨⟨fun h => absurd h (by decide), fun h => absurd h hA⟩, ?_, ?_⟩
      · refine ⟨fun h => absurd h (by decide), fun h => absurd h.2 hB⟩
      · exact ⟨fun _ => ⟨hA, by omega⟩, fun _ => rfl⟩

/-- C4 (amended): after every recomputation the match status is
`completed` iff at least two innings exist and at least two of them are
completed (the source checks `innings_count >= 2 and completed_count >=
2`, not "exactly 2"); otherwise it is `live` iff at least one ball event
exists; otherwise `scheduled`. -/
theorem C4_match_status_amended (s : MatchState) :
    ((recomputeMatch s).status = "completed" ↔
      2 ≤ (recomputeMatch s).innings.length ∧
      2 ≤ (recomputeMatch s).innings.countP (fun i => i.status == "completed")) ∧
    ((recomputeMatch s).status = "live" ↔
      ¬(2 ≤ (recomputeMatch s).innings.length ∧
        2 ≤ (recomputeMatch s).innings.countP (fun i => i.status == "completed")) ∧
      0 < matchEventCount (recomputeMatch s).innings) ∧
    ((recomputeMatch s).status = "scheduled" ↔
      ¬(2 ≤ (recomputeMatch s).innings.length ∧
        2 ≤ (recomputeMatch s).innings.countP (fun i => i.status == "completed")) ∧
      matchEventCount (recomputeMatch s).innings = 0) := by
  have hst : (recomputeMatch s).status =
      (if 2 ≤ (s.innings.map (recomputeInnings s.totalOvers)).length ∧
          2 ≤ (s.innings.map (recomputeInnings s.totalOvers)).countP
              (fun i => i.status == "completed")
       then "completed"
       else if 0 < matchEventCount (s.innings.map (recomputeInnings s.totalOvers))
       then "live" else "scheduled") := rfl
  have hinn : (recomputeMatch s).innings = s.innings.map (recomputeInnings s.totalOvers) := rfl
  rw [hst, hinn]
  exact statusSpec _ _ _

/-! ## Per-player match statistics (`_recompute_match_player_stats`) -/

/-- The in-memory batting accumulator of `_recompute_match_player_stats`
(the `innings` set is kept as an insertion-ordered duplicate-free list). -/
structure BatAcc where
  teamId : Nat
  innings : List Nat
  runs : Int
  ballsFaced : Nat
  fours : Nat
  sixes : Nat
  dismissals : Nat
deriving DecidableEq, Repr

/-- The in-memory bowling accumulator of `_recompute_match_player_stats`. -/
structure BowlAcc where
  teamId : Nat
  innings : List Nat
  ballsBowled : Nat
  runsConceded : Int
  wickets : Nat
  wides : Int
  noBalls : Int
deriving DecidableEq, Repr

/-- The three dictionaries threaded through the per-event loop. -/
structure StatsAcc where
  batting : List (Nat × BatAcc)
  bowling : List (Nat × BowlAcc)
  runsByInnings : List ((Nat × Nat) × Int)
deriving DecidableEq, Repr

def emptyBatAcc (teamId : Nat) : BatAcc :=
  { teamId := teamId, innings := [], runs := 0, ballsFaced := 0,
    fours := 0, sixes := 0, dismissals := 0 }

def emptyBowlAcc (teamId : Nat) : BowlAcc :=
  { teamId := teamId, innings := [], ballsBowled := 0, runsConceded := 0,
    wickets := 0, wides := 0, noBalls := 0 }

/-- `ensure_batter` followed by an in-place mutation of the entry. -/
def updateBat (m : List (Nat × BatAcc)) (pid teamId : Nat) (f : BatAcc → BatAcc) :
    List (Nat × BatAcc) :=
  setA m pid (f (getA m pid (emptyBatAcc teamId)))

/-- `ensure_bowler` followed by an in-place mutation of the entry. -/
def updateBowl (m : List (Nat × BowlAcc)) (pid teamId : Nat) (f : BowlAcc → BowlAcc) :
    List (Nat × BowlAcc) :=
  setA m pid (f (getA m pid (emptyBowlAcc teamId)))

/-- One row of the event query of `_recompute_match_player_stats`, paired
with its innings' team ids (the `innings_by_id` join of the source). -/
structure EventRow where
  inningsId : Nat
  battingTeamId : Nat
  bowlingTeamId : Nat
  ev : BallEvent
deriving DecidableEq, Repr

/-- `ball_events WHERE match_id = ? ORDER BY innings_id, event_seq`. -/
def matchEventRows (s : MatchState) : List EventRow :=
  (s.innings.map (fun i => i.events.map (fun e =>
    { inningsId := i.inningsNo, battingTeamId := i.battingTeamId,
      bowlingTeamId := i.bowlingTeamId, ev := e }))).flatten

/-- The striker-side mutation of the batting entry for one event. -/
def strikerUpdate (row : EventRow) (b : BatAcc) : BatAcc :=
  { b with innings := addUnique b.innings row.inningsId,
           runs := b.runs + row.ev.runsOffBat,
           ballsFaced := b.ballsFaced + (if row.ev.legalBall then 1 else 0),
           fours := b.fours + (if row.ev.runsOffBat = 4 then 1 else 0),
           sixes := b.sixes + (if row.ev.runsOffBat = 6 then 1 else 0) }

/-- The non-striker registration for one event. -/
def nonStrikerUpdate (row : EventRow) (b : BatAcc) : BatAcc :=
  { b with innings := addUnique b.innings row.inningsId }

/-- The dismissed-player mutation for one event. -/
def dismissedUpdate (row : EventRow) (b : BatAcc) : BatAcc :=
  { b with innings := addUnique b.innings row.inningsId,
           dismissals := b.dismissals + 1 }

/-- The bowler-side mutation for one event: legal-ball count, conceded
runs by extra type, and the wicket credit that excludes run-outs. -/
def bowlerUpdate (row : EventRow) (b : BowlAcc) : BowlAcc :=
  let e := row.ev
  let b1 := { b with innings := addUnique b.innings row.inningsId,
                     ballsBowled := b.ballsBowled + (if e.legalBall then 1 else 0) }
  let b2 :=
    if e.extraType = "wide" then
      { b1 with wides := b1.wides + e.extras,
                runsConceded := b1.runsConceded + e.runsOffBat + e.extras }
    else if e.extraType = "no_ball" then
      { b1 with noBalls := b1.noBalls + e.extras,
                runsConceded := b1.runsConceded + e.runsOffBat + e.extras }
    else if e.extraType = "bye" ∨ e.extraType = "leg_bye" then
      { b1 with runsConceded := b1.runsConceded + e.runsOffBat }
    else
      { b1 with runsConceded := b1.runsConceded + e.runsOffBat + e.extras }
  if e.isWicket ∧ normalizeDismissalType e.dismissalType ≠ some "run_out"
  then { b2 with wickets := b2.wickets + 1 } else b2

/-- The body of the per-event loop of `_recompute_match_player_stats`. -/
def processRow (acc : StatsAcc) (row : EventRow) : StatsAcc :=
  let e := row.ev
  let bat1 := updateBat acc.batting e.strikerId row.battingTeamId (strikerUpdate row)
  let rbi := setA acc.runsByInnings (e.strikerId, row.inningsId)
    (getA acc.runsByInnings (e.strikerId, row.inningsId) 0 + e.runsOffBat)
  let bat2 := updateBat bat1 e.nonStrikerId row.battingTeamId (nonStrikerUpdate row)
  let bat3 :=
    match e.dismissedPlayerId with
    | some outId => updateBat bat2 outId row.battingTeamId (dismissedUpdate row)
    | none => bat2
  let bowl1 := updateBowl acc.bowling e.bowlerId row.bowlingTeamId (bowlerUpdate row)
  { batting := bat3, bowling := bowl1, runsByInnings := rbi }

/-- The full fold over a match's event rows. -/
def statsFold (rows : List EventRow) : StatsAcc :=
  rows.foldl processRow { batting := [], bowling := [], runsByInnings := [] }

/-- The credited wicket count of bowler `b` in the folded stats (0 when
the bowler has no entry). -/
def bowlWicketsOf (acc : StatsAcc) (b : Nat) : Nat :=
  ((lookupA acc.bowling b).map (fun x => x.wickets)).getD 0

/-- The dismissal count of batter `p` in the folded stats. -/
def batDismissalsOf (acc : StatsAcc) (p : Nat) : Nat :=
  ((lookupA acc.batting p).map (fun x => x.dismissals)).getD 0

/-- Whether batter `p` is registered as having batted in innings `iid`. -/
def batInningsHas (acc : StatsAcc) (p iid : Nat) : Bool :=
  ((lookupA acc.batting p).map (fun x => x.innings.contains iid)).getD false

/-- An event row credits its bowler with a wicket exactly when the wicket
flag is set and the (normalized) dismissal type is not `run_out`. -/
def creditsBowler (b : Nat) (row : EventRow) : Bool :=
  row.ev.bowlerId == b && row.ev.isWicket &&
    !(normalizeDismissalType row.ev.dismissalType == some "run_out")

/-- Whether an event row names player `p` as the dismissed player. -/
def dismissedBy (p : Nat) (row : EventRow) : Bool :=
  row.ev.dismissedPlayerId == some p

theorem lookupA_setA_self [BEq α] [LawfulBEq α] (m : List (α × β)) (k : α) (v : β) :
    lookupA (setA m k v) k = some v := by
  induction m with
  | nil => simp [setA, lookupA]
  | cons kv rest ih =>
    by_cases h : (kv.1 == k) = true
    · simp [setA, h, lookupA]
    · simp only [setA, h]
      rw [if_neg (by simp [h])]
      simp only [lookupA]
      rw [if_neg (by simp_all), ih]

theorem lookupA_setA_ne [BEq α] [LawfulBEq α] (m : List (α × β)) (k k2 : α) (v : β)
    (hne : k ≠ k2) : lookupA (setA m k v) k2 = lookupA m k2 := by
  induction m with
  | nil =>
    simp only [setA, lookupA]
    rw [if_neg (by simpa using hne)]
  | cons kv rest ih =>
    by_cases h : (kv.1 == k) = true
    · have hk : kv.1 = k := by simpa using h
      simp only [setA, h, if_pos]
      simp only [lookupA]
      rw [if_neg (by simpa using hne), if_neg (by rw [hk]; simpa using hne)]
    · simp only [setA, h]
      rw [if_neg (by simp [h])]
      simp only [lookupA]
      by_cases h2 : (kv.1 == k2) = true
      · rw [if_pos h2, if_pos h2]
      · rw [if_neg h2, if_neg h2, ih]

theorem bowlerUpdate_wickets (row : EventRow) (x : BowlAcc) :
    (bowlerUpdate row x).wickets = x.wickets +
      (if row.ev.isWicket ∧ normalizeDismissalType row.ev.dismissalType ≠ some "run_out"
       then 1 else 0) := by
  unfold bowlerUpdate
  dsimp only
  split_ifs <;> simp

theorem getA_wickets (m : List (Nat × BowlAcc)) (p : Nat) (t : Nat) :
    (getA m p (emptyBowlAcc t)).wickets = ((lookupA m p).map (fun x => x.wickets)).getD 0 := by
  unfold getA
  cases hl : lookupA m p <;> simp [emptyBowlAcc]

theorem bowlWicketsOf_processRow (acc : StatsAcc) (row : EventRow) (b : Nat) :
    bowlWicketsOf (processRow acc row) b =
      bowlWicketsOf acc b + (if creditsBowler b row then 1 else 0) := by
  have hb : (processRow acc row).bowling
      = updateBowl acc.bowling row.ev.bowlerId row.bowlingTeamId (bowlerUpdate row) := rfl
  unfold bowlWicketsOf
  rw [hb]
  unfold updateBowl
  by_cases hp : row.ev.bowlerId = b
  · subst hp
    rw [lookupA_setA_self]
    show (bowlerUpdate row (getA acc.bowling row.ev.bowlerId
        (emptyBowlAcc row.bowlingTeamId))).wickets = _
    rw [bowlerUpdate_wickets, getA_wickets]
    congr 1
    by_cases hw : row.ev.isWicket = true
    · by_cases hd : normalizeDismissalType row.ev.dismissalType = some "run_out"
      · rw [if_neg (by simp [hd]), if_neg (by simp [creditsBowler, hd])]
      · rw [if_pos ⟨hw, hd⟩, if_pos (by simp [creditsBowler, hw, hd])]
    · rw [if_neg (by simp [hw]), if_neg (by simp [creditsBowler, hw])]
  · rw [lookupA_setA_ne _ _ _ _ hp]
    rw [if_neg (by simp [creditsBowler, hp])]
    omega

theorem bowlWicketsOf_fold_aux (rows : List EventRow) : ∀ (acc : StatsAcc) (b : Nat),
    bowlWicketsOf (rows.foldl processRow acc) b =
      bowlWicketsOf acc b + rows.countP (creditsBowler b) := by
  induction rows with
  | nil => intro acc b; simp
  | cons r rows ih =>
    intro acc b
    rw [List.foldl_cons, ih, bowlWicketsOf_processRow, List.countP_cons]
    split_ifs with h
    · omega
    · omega

/-- The folded bowling stats credit bowler `b` exactly the events whose
wicket flag is set with a dismissal type other than `run_out`. -/
theorem bowlWicketsOf_statsFold (rows : List EventRow) (b : Nat) :
    bowlWicketsOf (statsFold rows) b = rows.countP (creditsBowler b) := by
  unfold statsFold
  rw [bowlWicketsOf_fold_aux]
  simp [bowlWicketsOf, lookupA]

theorem getA_dismissals (m : List (Nat × BatAcc)) (p t : Nat) :
    (getA m p (emptyBatAcc t)).dismissals =
      ((lookupA m p).map (fun x => x.dismissals)).getD 0 := by
  unfold getA
  cases hl : lookupA m p <;> simp [emptyBatAcc]

theorem dismissalsA_updateBat (m : List (Nat × BatAcc)) (pid t : Nat) (f : BatAcc → BatAcc)
    (d : Nat) (hf : ∀ x, (f x).dismissals = x.dismissals + d) (p : Nat) :
    ((lookupA (updateBat m pid t f) p).map (fun x => x.dismissals)).getD 0 =
      ((lookupA m p).map (fun x => x.dismissals)).getD 0 + (if pid = p then d else 0) := by
  unfold updateBat
  by_cases hp : pid = p
  · subst hp
    rw [lookupA_setA_self, if_pos rfl]
    show (f (getA m pid (emptyBatAcc t))).dismissals = _
    rw [hf, getA_dismissals]
  · rw [lookupA_setA_ne _ _ _ _ hp, if_neg hp]
    omega

theorem batDismissalsOf_processRow (acc : StatsAcc) (row : EventRow) (p : Nat) :
    batDismissalsOf (processRow acc row) p =
      batDismissalsOf acc p + (if dismissedBy p row then 1 else 0) := by
  unfold batDismissalsOf
  cases hdp : row.ev.dismissedPlayerId with
  | none =>
    simp only [processRow, hdp]
    rw [dismissalsA_updateBat _ _ _ _ 0 (fun x => by simp [nonStrikerUpdate]) p,
        dismissalsA_updateBat _ _ _ _ 0 (fun x => by simp [strikerUpdate]) p]
    have hd : dismissedBy p row = false := by simp [dismissedBy, hdp]
    rw [hd]
    simp
  | some outId =>
    simp only [processRow, hdp]
    rw [dismissalsA_updateBat _ _ _ _ 1 (fun x => by simp [dismissedUpdate]) p,
        dismissalsA_updateBat _ _ _ _ 0 (fun x => by simp [nonStrikerUpdate]) p,
        dismissalsA_updateBat _ _ _ _ 0 (fun x => by simp [strikerUpdate]) p]
    unfold dismissedBy
    rw [hdp]
    by_cases ho : outId = p
    · subst ho
      simp
    · rw [if_neg ho, show ((some outId == some p) = false) from by simpa using ho]
      simp

theorem batDismissalsOf_fold_aux (rows : List EventRow) : ∀ (acc : StatsAcc) (p : Nat),
    batDismissalsOf (rows.foldl processRow acc) p =
      batDismissalsOf acc p + rows.countP (dismissedBy p) := by
  induction rows with
  | nil => intro acc p; simp
  | cons r rows ih =>
    intro acc p
    rw [List.foldl_cons, ih, batDismissalsOf_processRow, List.countP_cons]
    split_ifs <;> omega

theorem addUnique_contains [BEq α] [LawfulBEq α] (l : List α) (x : α) :
    (addUnique l x).contains x = true := by
  unfold addUnique
  split
  · assumption
  · simp

theorem batInningsHas_dismissed (acc : StatsAcc) (row : EventRow) (p : Nat)
    (hdp : row.ev.dismissedPlayerId = some p) :
    batInningsHas (processRow acc row) p row.inningsId = true := by
  unfold batInningsHas
  simp only [processRow, hdp]
  unfold updateBat
  rw [lookupA_setA_self]
  simp only [Option.map_some', Option.getD_some, dismissedUpdate]
  exact addUnique_contains _ _

theorem statsFold_append_singleton (rows : List EventRow) (row : EventRow) :
    statsFold (rows ++ [row]) = processRow (statsFold rows) row := by
  unfold statsFold
  rw [List.foldl_append]
  rfl

/-- C5: a run-out wicket raises the innings' recomputed wicket count by
one yet leaves every bowler's credited wickets in the folded per-match
bowling stats unchanged; in general a bowler is credited exactly the
events whose wicket flag is set with a dismissal type other than
`run_out`. -/
theorem C5_run_out_wicket_not_credited (rows : List EventRow) (row : EventRow)
    (hw : row.ev.isWicket = true)
    (hro : normalizeDismissalType row.ev.dismissalType = some "run_out") :
    countWickets ((rows ++ [row]).map (fun r => r.ev)) =
      countWickets (rows.map (fun r => r.ev)) + 1 ∧
    (∀ b : Nat, bowlWicketsOf (statsFold (rows ++ [row])) b = bowlWicketsOf (statsFold rows) b) ∧
    (∀ b : Nat, bowlWicketsOf (statsFold rows) b = rows.countP (creditsBowler b)) := by
  refine ⟨?_, ?_, fun b => bowlWicketsOf_statsFold rows b⟩
  · rw [List.map_append]
    unfold countWickets
    simp only [List.map_cons, List.map_nil]
    rw [countP_append_singleton, hw]
    simp
  · intro b
    rw [bowlWicketsOf_statsFold, bowlWicketsOf_statsFold, List.countP_append]
    have hcred : creditsBowler b row = false := by
      simp [creditsBowler, hro]
    simp [List.countP_cons, hcred]

def c5Row : EventRow :=
  { inningsId := 1, battingTeamId := 1, bowlingTeamId := 2,
    ev := { eventSeq := 1, overNo := 0, ballInOver := 1, legalBall := true,
            strikerId := 10, nonStrikerId := 11, bowlerId := 20,
            runsOffBat := 0, extras := 0, extraType := "none", isWicket := true,
            dismissalType := some "run_out", dismissedPlayerId := some 10, notes := none } }

theorem C5_witness :
    countWickets ((([] : List EventRow) ++ [c5Row]).map (fun r => r.ev)) =
      countWickets (([] : List EventRow).map (fun r => r.ev)) + 1 ∧
    (∀ b : Nat, bowlWicketsOf (statsFold (([] : List EventRow) ++ [c5Row])) b =
      bowlWicketsOf (statsFold []) b) ∧
    (∀ b : Nat, bowlWicketsOf (statsFold []) b =
      ([] : List EventRow).countP (creditsBowler b)) :=
  C5_run_out_wicket_not_credited [] c5Row rfl rfl

/-- A ball input whose dismissed player is set while the wicket flag is
false. -/
def c10Input : BallInput :=
  { inningsNo := 1, strikerId := 10, nonStrikerId := 11, bowlerId := 20,
    runsOffBat := 0, extras := 0, extraType := "none", isWicket := false,
    dismissalType := none, dismissedPlayerId := some 11, notes := none }

/-- C10: `record_ball_event` accepts an event whose dismissed player is
set while the wicket flag is false (shown on a concrete reachable state),
and on recomputation such an event adds one to the dismissed player's
dismissal count and registers them as having batted in that innings,
while the innings' recomputed wicket count and every bowler's credited
wickets stay unchanged. -/
theorem C10_dismissed_without_wicket (rows : List EventRow) (row : EventRow) (p : Nat)
    (hdp : row.ev.dismissedPlayerId = some p) (hw : row.ev.isWicket = false) :
    ((recordBallEvent wState1 c10Input).toOption.map (fun s =>
        s.innings.map (fun i =>
          (i.wickets, i.events.map (fun e => (e.dismissedPlayerId, e.isWicket)))))
      = some [(0, [(some 11, false)])]) ∧
    batDismissalsOf (statsFold (rows ++ [row])) p = batDismissalsOf (statsFold rows) p + 1 ∧
    batInningsHas (statsFold (rows ++ [row])) p row.inningsId = true ∧
    countWickets ((rows ++ [row]).map (fun r => r.ev)) =
      countWickets (rows.map (fun r => r.ev)) ∧
    (∀ b : Nat, bowlWicketsOf (statsFold (rows ++ [row])) b =
      bowlWicketsOf (statsFold rows) b) := by
  refine ⟨by rfl, ?_, ?_, ?_, ?_⟩
  · rw [statsFold_append_singleton, batDismissalsOf_processRow]
    rw [show dismissedBy p row = true from by simp [dismissedBy, hdp]]
    simp
  · rw [statsFold_append_singleton]
    exact batInningsHas_dismissed _ row p hdp
  · rw [List.map_append]
    unfold countWickets
    simp only [List.map_cons, List.map_nil]
    rw [countP_append_singleton, hw]
    simp
  · intro b
    rw [bowlWicketsOf_statsFold, bowlWicketsOf_statsFold, List.countP_append]
    have hcred : creditsBowler b row = false := by
      simp [creditsBowler, hw]
    simp [List.countP_cons, hcred]

/-- The stored row of `c10Input`, as an event row of innings 1. -/
def c10Row : EventRow :=
  { inningsId := 1, battingTeamId := 1, bowlingTeamId := 2,
    ev := { eventSeq := 1, overNo := 0, ballInOver := 1, legalBall := true,
            strikerId := 10, nonStrikerId := 11, bowlerId := 20,
            runsOffBat := 0, extras := 0, extraType := "none", isWicket := false,
            dismissalType := none, dismissedPlayerId := some 11, notes := none } }

theorem C10_witness :
    ((recordBallEvent wState1 c10Input).toOption.map (fun s =>
        s.innings.map (fun i =>
          (i.wickets, i.events.map (fun e => (e.dismissedPlayerId, e.isWicket)))))
      = some [(0, [(some 11, false)])]) ∧
    batDismissalsOf (statsFold (([] : List EventRow) ++ [c10Row])) 11 =
      batDismissalsOf (statsFold []) 11 + 1 ∧
    batInningsHas (statsFold (([] : List EventRow) ++ [c10Row])) 11 c10Row.inningsId = true ∧
    countWickets ((([] : List EventRow) ++ [c10Row]).map (fun r => r.ev)) =
      countWickets (([] : List EventRow).map (fun r => r.ev)) ∧
    (∀ b : Nat, bowlWicketsOf (statsFold (([] : List EventRow) ++ [c10Row])) b =
      bowlWicketsOf (statsFold []) b) :=
  C10_dismissed_without_wicket [] c10Row 11 rfl rfl

/-! ## Team selection (`selector.py` and `cli.py`) -/

/-- `PlayerStats` of `models.py`; the source's floats are embedded as
rationals. -/
structure PlayerStats where
  playerName : String
  role : String
  availability : Bool
  battingMatches : Nat
  battingInnings : Nat
  battingRuns : Nat
  battingNotOut : Nat
  battingHighScore : Nat
  battingAvg : ℚ
  battingStrikeRate : ℚ
  bowlingMatches : Nat
  bowlingInnings : Nat
  bowlingOvers : ℚ
  bowlingRuns : Nat
  bowlingWickets : Nat
  bowlingEconomy : ℚ
  bowlingStrikeRate : ℚ
  bowlingAvg : ℚ
  bowlingWides : Nat
  bowlingNoBall : Nat
  fieldingMatches : Nat
  fieldingCatches : Nat
  fieldingCaughtBehind : Nat
  fieldingRunOut : Nat
  fieldingStumping : Nat
deriving DecidableEq, Repr

/-- `PlayerProfile` of `models.py`. -/
structure PlayerProfile where
  playerName : String
  role : String
  rating : ℚ
  battingScore : ℚ
  bowlingScore : ℚ
  fieldingScore : ℚ
deriving DecidableEq, Repr

/-- `SelectionEntry` of `selector.py` (the `profile` is flattened in). -/
structure SelectionEntry where
  profile : PlayerProfile
  selectionScore : ℚ
  sampleSize : Nat
  reason : String
deriving DecidableEq, Repr

/-- Python `round()` to an integer: round half to even. -/
def pyRound (q : ℚ) : ℤ :=
  let f := ⌊q⌋
  let frac := q - f
  if frac < 1/2 then f
  else if 1/2 < frac then f + 1
  else if f % 2 = 0 then f else f + 1

/-- Python `round(x, 2)`. -/
def round2 (q : ℚ) : ℚ :=
  (pyRound (q * 100) : ℚ) / 100

/-- `_sample_size` of `selector.py`. -/
def sampleSize (stats : PlayerStats) : Nat :=
  if stats.role = "Batter" then stats.battingInnings
  else if stats.role = "Bowler" then stats.bowlingInnings
  else if stats.role = "Allrounder" ∨ stats.role = "Wicket Keeper" then
    max stats.battingInnings stats.bowlingInnings
  else max stats.battingInnings stats.bowlingInnings

/-- Python `str.replace(" ", "_")` for a single-character pattern. -/
def replaceSpace (s : String) : String :=
  ⟨s.data.map (fun c => if c = ' ' then '_' else c)⟩

/-- `_normalize_role_key` of `selector.py`. -/
def normalizeRoleKey (role : String) : Except String String :=
  let token := replaceSpace (pyLower (pyStrip role))
  if token = "batter" then Except.ok "Batter"
  else if token = "bowler" then Except.ok "Bowler"
  else if token = "allrounder" then Except.ok "Allrounder"
  else if token = "wicket_keeper" then Except.ok "Wicket Keeper"
  else if token = "wicketkeeper" then Except.ok "Wicket Keeper"
  else Except.error "Unknown role in team structure"

/-- The `needed` counter of `select_team`: the dict comprehension keeps
only positive counts, normalizing keys (later duplicates overwrite). -/
def buildNeeded (teamStructure : List (String × Int)) : Except String (List (String × Int)) :=
  teamStructure.foldlM (fun acc kv =>
    if 0 < kv.2 then
      (normalizeRoleKey kv.1).map (fun nk => setA acc nk kv.2)
    else pure acc) []

/-- `target_size = sum(needed.values())` (all values are positive). -/
def targetOf (needed : List (String × Int)) : Nat :=
  (needed.map (fun kv => kv.2.toNat)).sum

/-- The `role_sums` dict of `_compute_role_priors`. -/
def roleSumsOf (players : List PlayerProfile) : List (String × ℚ) :=
  players.foldl (fun acc p => setA acc p.role (getA acc p.role 0 + p.rating)) []

/-- The `role_counts` dict of `_compute_role_priors` (counts kept as
rationals, as the source divides by them). -/
def roleCountsOf (players : List PlayerProfile) : List (String × ℚ) :=
  players.foldl (fun acc p => setA acc p.role (getA acc p.role 0 + 1)) []

/-- One entry of the `priors` dict: `role_sums[role] / role_counts[role]`
(the default is never read: both dicts have the same keys). -/
def priorEntry (counts : List (String × ℚ)) (k : String) (v : ℚ) : ℚ :=
  v / getA counts k 1

/-- `_compute_role_priors` of `selector.py`: per-role mean rating plus the
global mean with the `max(len, 1)` guard. -/
def computeRolePriors (players : List PlayerProfile) : List (String × ℚ) × ℚ :=
  let priors := (roleSumsOf players).map
    (fun kv => (kv.1, priorEntry (roleCountsOf players) kv.1 kv.2))
  let globalPrior := (players.map (fun p => p.rating)).sum / (max players.length 1 : ℚ)
  (priors, globalPrior)

/-- The body of the scoring loop of `select_team` for one player:
reliability shrinkage against the role prior, score rounded to 2
decimals; a player missing from `stats_by_player` raises (Python
`KeyError`). -/
def scoreOne (statsBy : List (String × PlayerStats)) (shrinkageK : ℚ)
    (rp : List (String × ℚ) × ℚ) (p : PlayerProfile) : Except String SelectionEntry :=
  match lookupA statsBy p.playerName with
  | none => Except.error "KeyError"
  | some stats =>
    let n : ℚ := (sampleSize stats : ℚ)
    let reliability := n / (n + max shrinkageK 1)
    let prior := getA rp.1 p.role rp.2
    let selectionScore := reliability * p.rating + (1 - reliability) * prior
    Except.ok { profile := p, selectionScore := round2 selectionScore,
                sampleSize := sampleSize stats, reason := "default" }

/-- A Python-style loop building a list, where the first raised exception
propagates. -/
def mapExcept (f : α → Except ε β) : List α → Except ε (List β)
  | [] => Except.ok []
  | a :: l =>
    match f a with
    | Except.error e => Except.error e
    | Except.ok b => (mapExcept f l).map (fun bs => b :: bs)

/-- The scoring loop of `select_team`. -/
def scorePlayers (players : List PlayerProfile) (statsBy : List (String × PlayerStats))
    (shrinkageK : ℚ) : Except String (List SelectionEntry) :=
  mapExcept (scoreOne statsBy shrinkageK (computeRolePriors players)) players

/-- `_desired_rating_thresholds` of `selector.py`. -/
def desiredRatingThresholds (scored : List SelectionEntry) (needed : List (String × Int)) :
    List (String × ℚ) :=
  needed.foldl (fun (th : List (String × ℚ)) (kv : String × Int) =>
    if kv.2 ≤ 0 then th
    else
      let roleEntries := scored.filter (fun e => e.profile.role == kv.1)
      if roleEntries.isEmpty then th
      else
        let sortedE := List.insertionSort
          (fun a b => b.profile.rating ≤ a.profile.rating) roleEntries
        let topN := min kv.2.toNat roleEntries.length
        match sortedE.get? (topN - 1) with
        | some e => setA th kv.1 e.profile.rating
        | none => th) []

/-- Python tuple comparison on `(selection_score, rating)`. -/
def lexLe (a b : ℚ × ℚ) : Bool :=
  decide (a.1 < b.1) || (decide (a.1 = b.1) && decide (a.2 ≤ b.2))

def entryKey (e : SelectionEntry) : ℚ × ℚ :=
  (e.selectionScore, e.profile.rating)

/-- Python `sorted(key=(selection_score, rating), reverse=True)`: a stable
sort, descending in the key.  Python's sort is stable, and a stable sort
under a total preorder is unique, so a stable insertion sort is
extensionally the same function. -/
def sortEntriesDesc (l : List SelectionEntry) : List SelectionEntry :=
  List.insertionSort (fun a b => lexLe (entryKey b) (entryKey a) = true) l

/-- The fixed role iteration order of `select_team`. -/
def roleFillOrder : List String := ["Batter", "Bowler", "Allrounder", "Wicket Keeper"]

/-- The per-role fill state: picked entries plus the shortage dict. -/
structure FillResult where
  selected : List SelectionEntry
  shortages : List (String × Int)
deriving DecidableEq, Repr

/-- One role's candidate list inside the fill loop of `select_team`:
that role's scored entries, thinned by the desired-rating threshold (and
retagged `desired_rating`) when filtering is enabled. -/
def roleCandidates (scored : List SelectionEntry) (filterEnabled : Bool)
    (thresholds : List (String × ℚ)) (role : String) : List SelectionEntry :=
  let rolePlayers0 := scored.filter (fun e => e.profile.role == role)
  if filterEnabled ∧ (lookupA thresholds role).isSome then
    match lookupA thresholds role with
    | some threshold =>
      (rolePlayers0.filter (fun e => decide (threshold ≤ e.profile.rating))).map
        (fun e => { e with reason := "desired_rating" })
    | none => rolePlayers0
  else rolePlayers0

/-- One iteration of the per-role fill loop of `select_team`. -/
def fillStep (scored : List SelectionEntry) (needed : List (String × Int))
    (filterEnabled : Bool) (thresholds : List (String × ℚ))
    (acc : FillResult) (role : String) : FillResult :=
  let roleNeeded := getA needed role 0
  if roleNeeded ≤ 0 then acc
  else
    let rolePlayers := sortEntriesDesc (roleCandidates scored filterEnabled thresholds role)
    let shortages :=
      if (rolePlayers.length : Int) < roleNeeded then
        setA acc.shortages role (roleNeeded - rolePlayers.length)
      else acc.shortages
    { selected := acc.selected ++ rolePlayers.take roleNeeded.toNat, shortages := shortages }

/-- The per-role fill loop of `select_team`. -/
def fillRoles (scored : List SelectionEntry) (needed : List (String × Int))
    (filterEnabled : Bool) (thresholds : List (String × ℚ)) : FillResult :=
  roleFillOrder.foldl (fillStep scored needed filterEnabled thresholds)
    { selected := [], shortages := [] }

/-- The default-mode cross-role backfill of `select_team`. -/
def backfillDefault (scored : List SelectionEntry) (selected : List SelectionEntry)
    (targetSize : Nat) : List SelectionEntry :=
  let selectedNames := selected.map (fun e => e.profile.playerName)
  if selected.length < targetSize then
    let remaining := scored.filter (fun e =>
      !(selectedNames.contains e.profile.playerName) && !(e.profile.role == ""))
    selected ++ (sortEntriesDesc remaining).take (targetSize - selected.length)
  else selected

/-- Python `min(entries, key=selection_score)`: the first minimum. -/
def minBySelectionScore (l : List SelectionEntry) : Option SelectionEntry :=
  l.foldl (fun acc e =>
    match acc with
    | none => some e
    | some m => if e.selectionScore < m.selectionScore then some e else some m) none

/-- The emerging-player substitution loop of `select_team`. -/
def applyEmerging (scored : List SelectionEntry) (selected : List SelectionEntry)
    (emergingMaxInnings : Int) (emergingSlots : Int) : List SelectionEntry :=
  if 0 < emergingSlots ∧ selected ≠ [] then
    let selectedNames := selected.map (fun e => e.profile.playerName)
    let pool := scored.filter (fun e =>
      decide ((e.sampleSize : Int) < emergingMaxInnings) &&
        !(selectedNames.contains e.profile.playerName))
    let pool := List.insertionSort (fun a b => b.profile.rating ≤ a.profile.rating) pool
    (pool.take emergingSlots.toNat).foldl (fun sel emerging =>
      let sameRole := sel.filter (fun e => e.profile.role == emerging.profile.role)
      match minBySelectionScore sameRole with
      | none => sel
      | some replace =>
        if emerging.profile.rating ≤ replace.profile.rating then sel
        else (sel.erase replace) ++
          [{ profile := emerging.profile, selectionScore := emerging.selectionScore,
             sampleSize := emerging.sampleSize, reason := "emerging_slot" }]) selected
  else selected

/-- `select_team` of `selector.py`. -/
def selectTeam (players : List PlayerProfile) (statsBy : List (String × PlayerStats))
    (teamStructure : List (String × Int)) (shrinkageK : ℚ)
    (emergingMaxInnings : Int) (emergingSlots : Int) (filterEnabled : Bool) :
    Except String (List SelectionEntry × List (String × Int) × List (String × ℚ)) := do
  let needed ← buildNeeded teamStructure
  let targetSize := targetOf needed
  let scored ← scorePlayers players statsBy shrinkageK
  let thresholds := desiredRatingThresholds scored needed
  let fill := fillRoles scored needed filterEnabled thresholds
  if filterEnabled then
    pure ((sortEntriesDesc fill.selected).take targetSize, fill.shortages, thresholds)
  else
    let selected := backfillDefault scored fill.selected targetSize
    let selected := applyEmerging scored selected emergingMaxInnings emergingSlots
    pure ((sortEntriesDesc selected).take targetSize, fill.shortages, thresholds)

/-- The role order claimed by the spec ("Batter, Wicket Keeper,
Allrounder, Bowler") — written from the spec's words, for comparison with
the source's `roleFillOrder`. -/
def roleFillOrderSpec : List String := ["Batter", "Wicket Keeper", "Allrounder", "Bowler"]

/-- `select_team`'s fill loop run in the spec's claimed role order —
written from the spec's words, for comparison with `fillRoles`. -/
def fillRolesSpecOrder (scored : List SelectionEntry) (needed : List (String × Int))
    (filterEnabled : Bool) (thresholds : List (String × ℚ)) : FillResult :=
  roleFillOrderSpec.foldl (fillStep scored needed filterEnabled thresholds)
    { selected := [], shortages := [] }

/-- `select_team` with the spec's claimed role order in the fill loop —
identical to `selectTeam` in every other respect, for comparison. -/
def selectTeamSpecOrder (players : List PlayerProfile) (statsBy : List (String × PlayerStats))
    (teamStructure : List (String × Int)) (shrinkageK : ℚ)
    (emergingMaxInnings : Int) (emergingSlots : Int) (filterEnabled : Bool) :
    Except String (List SelectionEntry × List (String × Int) × List (String × ℚ)) := do
  let needed ← buildNeeded teamStructure
  let targetSize := targetOf needed
  let scored ← scorePlayers players statsBy shrinkageK
  let thresholds := desiredRatingThresholds scored needed
  let fill := fillRolesSpecOrder scored needed filterEnabled thresholds
  if filterEnabled then
    pure ((sortEntriesDesc fill.selected).take targetSize, fill.shortages, thresholds)
  else
    let selected := backfillDefault scored fill.selected targetSize
    let selected := applyEmerging scored selected emergingMaxInnings emergingSlots
    pure ((sortEntriesDesc selected).take targetSize, fill.shortages, thresholds)

/-- The `team_structure` value read from the weights JSON: either a JSON
object (string keys, integer counts) or some non-mapping value. -/
inductive ConfigVal where
  | obj : List (String × Int) → ConfigVal
  | notObj : ConfigVal
deriving DecidableEq, Repr

/-- `run_team` of `cli.py` up to the `select_team` call, parameterized by
the rating engine (`rate_players`, outside this claim's scope) and the
selection function, so that the validation errors can be shown to fire
before any selection work: availability filter, empty-pool check, the
mapping check on `team_structure`, the positive-count filter, then the
call into selection. -/
def runTeam (records : List PlayerStats) (structureRaw : ConfigVal) (k : ℚ)
    (emMax emSlots : Int) (filterEnabled : Bool)
    (rate : List PlayerStats → List PlayerProfile)
    (sel : List PlayerProfile → List (String × PlayerStats) → List (String × Int) → ℚ →
      Int → Int → Bool →
      Except String (List SelectionEntry × List (String × Int) × List (String × ℚ))) :
    Except String (List SelectionEntry × List (String × Int) × List (String × ℚ)) :=
  let availableRecords := records.filter (fun r => r.availability)
  if availableRecords.isEmpty then
    Except.error "No available players found in input CSV"
  else
    let profiles := rate availableRecords
    match structureRaw with
    | ConfigVal.notObj =>
      Except.error "team_structure must be a JSON object in weights config"
    | ConfigVal.obj m =>
      let structureMap := m.foldl (fun acc kv => if 0 < kv.2 then setA acc kv.1 kv.2 else acc) []
      if structureMap.isEmpty then
        Except.error "team_structure in weights config has no positive role counts"
      else
        let statsBy := availableRecords.map (fun s => (s.playerName, s))
        sel profiles statsBy structureMap k emMax emSlots filterEnabled

/-- `run_team` as wired in `cli.py`: the selection function is
`select_team`. -/
def runTeamCli (records : List PlayerStats) (structureRaw : ConfigVal) (k : ℚ)
    (emMax emSlots : Int) (filterEnabled : Bool)
    (rate : List PlayerStats → List PlayerProfile) :
    Except String (List SelectionEntry × List (String × Int) × List (String × ℚ)) :=
  runTeam records structureRaw k emMax emSlots filterEnabled rate selectTeam

/-- A stats record carrying only a name, role, availability and innings
counts; every other raw number is zero. -/
def testStats (name role : String) (avail : Bool) (bi bo : Nat) : PlayerStats :=
  { playerName := name, role := role, availability := avail,
    battingMatches := 0, battingInnings := bi, battingRuns := 0, battingNotOut := 0,
    battingHighScore := 0, battingAvg := 0, battingStrikeRate := 0,
    bowlingMatches := 0, bowlingInnings := bo, bowlingOvers := 0, bowlingRuns := 0,
    bowlingWickets := 0, bowlingEconomy := 0, bowlingStrikeRate := 0, bowlingAvg := 0,
    bowlingWides := 0, bowlingNoBall := 0, fieldingMatches := 0, fieldingCatches := 0,
    fieldingCaughtBehind := 0, fieldingRunOut := 0, fieldingStumping := 0 }

/-- A profile with a name, role and rating; the sub-scores are zero. -/
def testProfile (name role : String) (r : ℚ) : PlayerProfile :=
  { playerName := name, role := role, rating := r,
    battingScore := 0, bowlingScore := 0, fieldingScore := 0 }

/-- A rating engine returning no profiles, for exercising the validation
path of `run_team`. -/
def rateNone : List PlayerStats → List PlayerProfile := fun _ => []

theorem structFold_all_nonpos (m : List (String × Int)) (acc : List (String × Int))
    (h : ∀ kv ∈ m, kv.2 ≤ 0) :
    m.foldl (fun acc kv => if 0 < kv.2 then setA acc kv.1 kv.2 else acc) acc = acc := by
  induction m generalizing acc with
  | nil => rfl
  | cons kv rest ih =>
    rw [List.foldl_cons, if_neg (by have := h kv (by simp); omega)]
    exact ih acc (fun kv2 h2 => h kv2 (by simp [h2]))

/-- C9: `run_team` raises three pairwise distinct named errors — empty
available pool, non-mapping team structure, no positive role counts —
each before any rating or selection result is consumed (the conclusion
holds for every selection function `sel`). -/
theorem C9_distinct_errors_before_selection (records : List PlayerStats) (k : ℚ)
    (emMax emSlots : Int) (filterEnabled : Bool)
    (rate : List PlayerStats → List PlayerProfile)
    (sel : List PlayerProfile → List (String × PlayerStats) → List (String × Int) → ℚ →
      Int → Int → Bool →
      Except String (List SelectionEntry × List (String × Int) × List (String × ℚ))) :
    (∀ structureRaw, (records.filter (fun r => r.availability)).isEmpty = true →
      runTeam records structureRaw k emMax emSlots filterEnabled rate sel
        = Except.error "No available players found in input CSV") ∧
    ((records.filter (fun r => r.availability)).isEmpty = false →
      runTeam records ConfigVal.notObj k emMax emSlots filterEnabled rate sel
        = Except.error "team_structure must be a JSON object in weights config") ∧
    (∀ m, (records.filter (fun r => r.availability)).isEmpty = false →
      (∀ kv ∈ m, kv.2 ≤ 0) →
      runTeam records (ConfigVal.obj m) k emMax emSlots filterEnabled rate sel
        = Except.error "team_structure in weights config has no positive role counts") ∧
    ("No available players found in input CSV"
      ≠ "team_structure must be a JSON object in weights config") ∧
    ("No available players found in input CSV"
      ≠ "team_structure in weights config has no positive role counts") ∧
    ("team_structure must be a JSON object in weights config"
      ≠ "team_structure in weights config has no positive role counts") := by
  refine ⟨?_, ?_, ?_, by decide, by decide, by decide⟩
  · intro structureRaw h
    unfold runTeam
    rw [if_pos h]
  · intro h
    unfold runTeam
    rw [if_neg (by simp [h])]
  · intro m h hnp
    unfold runTeam
    rw [if_neg (by simp [h])]
    dsimp only
    rw [structFold_all_nonpos m [] hnp]
    rfl

theorem getA_setA_self [BEq α] [LawfulBEq α] (m : List (α × β)) (k : α) (v d : β) :
    getA (setA m k v) k d = v := by
  unfold getA
  rw [lookupA_setA_self]
  rfl

theorem getA_setA_ne [BEq α] [LawfulBEq α] (m : List (α × β)) (k k2 : α) (v d : β)
    (hne : k ≠ k2) : getA (setA m k v) k2 d = getA m k2 d := by
  unfold getA
  rw [lookupA_setA_ne _ _ _ _ hne]

theorem lookupA_map_keyed (m : List (String × ℚ)) (g : String → ℚ → ℚ) (r : String) :
    lookupA (m.map (fun kv => (kv.1, g kv.1 kv.2))) r = (lookupA m r).map (g r) := by
  induction m with
  | nil => rfl
  | cons kv rest ih =>
    by_cases h : (kv.1 == r) = true
    · have hk : kv.1 = r := by simpa using h
      simp [lookupA, h, hk]
    · simp [lookupA, h, ih]

/-- The rating list of one role's players, in pool order. -/
def roleRatings (players : List PlayerProfile) (r : String) : List ℚ :=
  (players.filter (fun p => p.role == r)).map (fun p => p.rating)

theorem sumFold_aux (players : List PlayerProfile) : ∀ (acc : List (String × ℚ)) (r : String),
    getA (players.foldl (fun acc p => setA acc p.role (getA acc p.role 0 + p.rating)) acc) r 0
      = getA acc r 0 + (roleRatings players r).sum := by
  induction players with
  | nil => intro acc r; simp [roleRatings]
  | cons p ps ih =>
    intro acc r
    rw [List.foldl_cons, ih]
    by_cases hr : p.role = r
    · subst hr
      rw [getA_setA_self]
      rw [show roleRatings (p :: ps) p.role = p.rating :: roleRatings ps p.role from by
        simp [roleRatings, List.filter_cons]]
      rw [List.sum_cons]
      ring
    · rw [getA_setA_ne _ _ _ _ _ hr]
      rw [show roleRatings (p :: ps) r = roleRatings ps r from by
        simp [roleRatings, List.filter_cons, hr]]

theorem countFold_aux (players : List PlayerProfile) : ∀ (acc : List (String × ℚ)) (r : String),
    getA (players.foldl (fun acc p => setA acc p.role (getA acc p.role 0 + 1)) acc) r 0
      = getA acc r 0 + ((players.filter (fun p => p.role == r)).length : ℚ) := by
  induction players with
  | nil => intro acc r; simp
  | cons p ps ih =>
    intro acc r
    rw [List.foldl_cons, ih]
    by_cases hr : p.role = r
    · subst hr
      rw [getA_setA_self]
      rw [show (p :: ps).filter (fun q => q.role == p.role)
            = p :: ps.filter (fun q => q.role == p.role) from by simp [List.filter_cons]]
      rw [List.length_cons]
      push_cast
      ring
    · rw [getA_setA_ne _ _ _ _ _ hr]
      rw [show (p :: ps).filter (fun q => q.role == r) = ps.filter (fun q => q.role == r) from by
        simp [List.filter_cons, hr]]

theorem lookupA_setA_isSome [BEq α] [LawfulBEq α] (m : List (α × β)) (k k2 : α) (v : β)
    (h : (lookupA m k2).isSome) : (lookupA (setA m k v) k2).isSome := by
  by_cases hk : k = k2
  · subst hk
    rw [lookupA_setA_self]
    rfl
  · rw [lookupA_setA_ne _ _ _ _ hk]
    exact h

theorem roleFold_isSome (players : List PlayerProfile)
    (f : List (String × ℚ) → PlayerProfile → ℚ) :
    ∀ (acc : List (String × ℚ)) (r : String),
    ((∃ p ∈ players, p.role = r) ∨ (lookupA acc r).isSome) →
    (lookupA (players.foldl (fun acc p => setA acc p.role (f acc p)) acc) r).isSome := by
  induction players with
  | nil =>
    intro acc r h
    rcases h with ⟨p, hp, _⟩ | h
    · cases hp
    · exact h
  | cons p ps ih =>
    intro acc r h
    rw [List.foldl_cons]
    apply ih
    rcases h with ⟨q, hq, hqr⟩ | h
    · rcases List.mem_cons.mp hq with rfl | hq2
      · right
        rw [hqr, lookupA_setA_self]
        rfl
      · exact Or.inl ⟨q, hq2, hqr⟩
    · exact Or.inr (lookupA_setA_isSome _ _ _ _ h)

theorem roleFold_none (players : List PlayerProfile)
    (f : List (String × ℚ) → PlayerProfile → ℚ) :
    ∀ (acc : List (String × ℚ)) (r : String),
    (∀ p ∈ players, p.role ≠ r) → lookupA acc r = none →
    lookupA (players.foldl (fun acc p => setA acc p.role (f acc p)) acc) r = none := by
  induction players with
  | nil => intro acc r _ h; exact h
  | cons p ps ih =>
    intro acc r hall h
    rw [List.foldl_cons]
    apply ih
    · exact fun q hq => hall q (by simp [hq])
    · rw [lookupA_setA_ne _ _ _ _ (hall p (by simp))]
      exact h

theorem getA_eq_of_isSome [BEq α] (m : List (α × β)) (k : α) (d1 d2 : β)
    (h : (lookupA m k).isSome) : getA m k d1 = getA m k d2 := by
  unfold getA
  cases hl : lookupA m k with
  | none => rw [hl] at h; cases h
  | some v => rfl

/-- The prior used for a role with members is that role's mean rating. -/
theorem prior_of_role_members (players : List PlayerProfile) (r : String)
    (hmem : ∃ p ∈ players, p.role = r) :
    getA (computeRolePriors players).1 r (computeRolePriors players).2
      = (roleRatings players r).sum / ((roleRatings players r).length : ℚ) := by
  have hsomeS : (lookupA (roleSumsOf players) r).isSome :=
    roleFold_isSome players _ [] r (Or.inl hmem)
  have hsomeC : (lookupA (roleCountsOf players) r).isSome :=
    roleFold_isSome players _ [] r (Or.inl hmem)
  have hS : getA (roleSumsOf players) r 0 = (roleRatings players r).sum := by
    have := sumFold_aux players [] r
    simpa [roleSumsOf, getA, lookupA] using this
  have hC : getA (roleCountsOf players) r 0
      = ((players.filter (fun p => p.role == r)).length : ℚ) := by
    have := countFold_aux players [] r
    simpa [roleCountsOf, getA, lookupA] using this
  have hlen : ((players.filter (fun p => p.role == r)).length : ℚ)
      = ((roleRatings players r).length : ℚ) := by
    simp [roleRatings]
  unfold computeRolePriors
  dsimp only
  unfold getA
  rw [lookupA_map_keyed (roleSumsOf players) (priorEntry (roleCountsOf players)) r]
  cases hl : lookupA (roleSumsOf players) r with
  | none => rw [hl] at hsomeS; cases hsomeS
  | some v =>
    have hv : v = (roleRatings players r).sum := by
      have hgv : getA (roleSumsOf players) r 0 = v := by
        unfold getA
        rw [hl]
        rfl
      rw [hgv] at hS
      exact hS
    have hCnt : getA (roleCountsOf players) r 1 = ((roleRatings players r).length : ℚ) := by
      rw [getA_eq_of_isSome _ _ 1 0 hsomeC, hC, hlen]
    simp only [Option.map_some', Option.getD_some]
    unfold priorEntry
    rw [hv, hCnt]

/-- The prior used for a role with no members falls back to the global
mean rating. -/
theorem prior_of_role_empty (players : List PlayerProfile) (r : String)
    (hnone : ∀ p ∈ players, p.role ≠ r) :
    getA (computeRolePriors players).1 r (computeRolePriors players).2
      = (players.map (fun p => p.rating)).sum / (max players.length 1 : ℚ) := by
  have hn : lookupA (roleSumsOf players) r = none :=
    roleFold_none players _ [] r hnone rfl
  unfold computeRolePriors
  dsimp only
  unfold getA
  rw [lookupA_map_keyed (roleSumsOf players) (priorEntry (roleCountsOf players)) r, hn]
  rfl

theorem mapExcept_ok_mem (f : α → Except ε β) (l : List α) : ∀ (out : List β),
    mapExcept f l = Except.ok out → ∀ a ∈ l, ∃ b ∈ out, f a = Except.ok b := by
  induction l with
  | nil => intro out _ a ha; cases ha
  | cons x l ih =>
    intro out h a ha
    unfold mapExcept at h
    cases hf : f x with
    | error e =>
      rw [hf] at h
      exact Except.noConfusion h
    | ok b =>
      rw [hf] at h
      cases hm : mapExcept f l with
      | error e =>
        rw [hm] at h
        exact Except.noConfusion h
      | ok bs =>
        rw [hm] at h
        simp only [Except.map] at h
        injection h with h
        subst h
        rcases List.mem_cons.mp ha with rfl | ha2
        · exact ⟨b, by simp, hf⟩
        · obtain ⟨b2, hb2, hfb2⟩ := ih bs hm a ha2
          exact ⟨b2, by simp [hb2], hfb2⟩

/-- C6 (amended): for shrinkage constant `k`, the code computes
`reliability = n/(n + max(k, 1))` — the constant is floored at 1, not
used raw — and `selection_score = round2(reliability*rating +
(1-reliability)*prior(role))`, where `prior(role)` is the role's mean
pool rating when the role has members and the global mean otherwise. -/
theorem C6_reliability_shrinkage_amended (players : List PlayerProfile)
    (statsBy : List (String × PlayerStats)) (k : ℚ) (scored : List SelectionEntry)
    (h : scorePlayers players statsBy k = Except.ok scored) :
    (∀ p ∈ players, ∃ stats, lookupA statsBy p.playerName = some stats ∧
      ∃ e ∈ scored,
        e.profile = p ∧ e.sampleSize = sampleSize stats ∧ e.reason = "default" ∧
        e.selectionScore = round2 (
          ((sampleSize stats : ℚ) / ((sampleSize stats : ℚ) + max k 1)) * p.rating +
          (1 - (sampleSize stats : ℚ) / ((sampleSize stats : ℚ) + max k 1)) *
            getA (computeRolePriors players).1 p.role (computeRolePriors players).2)) ∧
    (∀ r, (∃ p ∈ players, p.role = r) →
      getA (computeRolePriors players).1 r (computeRolePriors players).2
        = (roleRatings players r).sum / ((roleRatings players r).length : ℚ)) ∧
    (∀ r, (∀ p ∈ players, p.role ≠ r) →
      getA (computeRolePriors players).1 r (computeRolePriors players).2
        = (players.map (fun p => p.rating)).sum / (max players.length 1 : ℚ)) := by
  refine ⟨?_, fun r => prior_of_role_members players r, fun r => prior_of_role_empty players r⟩
  intro p hp
  obtain ⟨b, hb, hfb⟩ := mapExcept_ok_mem _ players scored h p hp
  unfold scoreOne at hfb
  cases hl : lookupA statsBy p.playerName with
  | none =>
    rw [hl] at hfb
    exact Except.noConfusion hfb
  | some stats =>
    rw [hl] at hfb
    injection hfb with hfb
    refine ⟨stats, rfl, b, hb, ?_⟩
    subst hfb
    exact ⟨rfl, rfl, rfl, rfl⟩

def c6Players : List PlayerProfile :=
  [testProfile "P1" "Batter" 80, testProfile "P2" "Batter" 60]

def c6Stats : List (String × PlayerStats) :=
  [("P1", testStats "P1" "Batter" true 30 0), ("P2", testStats "P2" "Batter" true 1 0)]

section
set_option allowUnsafeReducibility true
attribute [local semireducible] Rat.add Rat.mul Rat.sub Rat.inv

/-- C6 counterexample: with shrinkage constant k = 1/2, the code floors k
at 1, so P2 (rating 60, n = 1, Batter prior 70) gets selection score
`round2(0.5*60 + 0.5*70) = 65`, while the claim's `reliability = n/(n+k)
= 2/3` yields `round2(2/3*60 + 1/3*70) = 63.33 ≠ 65`. -/
theorem C6_counterexample :
    (scorePlayers c6Players c6Stats (1/2)).toOption.map
        (fun l => l.map (fun e => (e.profile.playerName, e.selectionScore, e.sampleSize)))
      = some [("P1", 1992/25, 30), ("P2", 65, 1)] ∧
    round2 (((1 : ℚ) / (1 + 1/2)) * 60 + (1 - (1 : ℚ) / (1 + 1/2)) * ((80 + 60) / 2))
      = 6333/100 ∧
    (65 : ℚ) ≠ 6333/100 := by
  refine ⟨?_, ?_, ?_⟩ <;> decide

def c6Scored : List SelectionEntry :=
  [{ profile := testProfile "P1" "Batter" 80, selectionScore := 1992/25,
     sampleSize := 30, reason := "default" },
   { profile := testProfile "P2" "Batter" 60, selectionScore := 65,
     sampleSize := 1, reason := "default" }]

theorem C6_witness :
    (∀ p ∈ c6Players, ∃ stats, lookupA c6Stats p.playerName = some stats ∧
      ∃ e ∈ c6Scored,
        e.profile = p ∧ e.sampleSize = sampleSize stats ∧ e.reason = "default" ∧
        e.selectionScore = round2 (
          ((sampleSize stats : ℚ) / ((sampleSize stats : ℚ) + max (1/2 : ℚ) 1)) * p.rating +
          (1 - (sampleSize stats : ℚ) / ((sampleSize stats : ℚ) + max (1/2 : ℚ) 1)) *
            getA (computeRolePriors c6Players).1 p.role (computeRolePriors c6Players).2)) ∧
    (∀ r, (∃ p ∈ c6Players, p.role = r) →
      getA (computeRolePriors c6Players).1 r (computeRolePriors c6Players).2
        = (roleRatings c6Players r).sum / ((roleRatings c6Players r).length : ℚ)) ∧
    (∀ r, (∀ p ∈ c6Players, p.role ≠ r) →
      getA (computeRolePriors c6Players).1 r (computeRolePriors c6Players).2
        = (c6Players.map (fun p => p.rating)).sum / (max c6Players.length 1 : ℚ)) :=
  C6_reliability_shrinkage_amended c6Players c6Stats (1/2) c6Scored (by rfl)

end

theorem length_sortEntriesDesc (l : List SelectionEntry) :
    (sortEntriesDesc l).length = l.length := by
  unfold sortEntriesDesc
  exact List.length_insertionSort _ _

theorem fillStep_selected (scored : List SelectionEntry) (needed : List (String × Int))
    (filterEnabled : Bool) (thresholds : List (String × ℚ)) (acc : FillResult) (role : String) :
    (fillStep scored needed filterEnabled thresholds acc role).selected
      = acc.selected ++
        (if getA needed role 0 ≤ 0 then []
         else (sortEntriesDesc (roleCandidates scored filterEnabled thresholds role)).take
           (getA needed role 0).toNat) := by
  unfold fillStep
  by_cases h : getA needed role 0 ≤ 0
  · simp only [if_pos h]
    simp
  · simp only [if_neg h]

theorem fillRoles_selected_aux (scored : List SelectionEntry) (needed : List (String × Int))
    (filterEnabled : Bool) (thresholds : List (String × ℚ)) (roles : List String) :
    ∀ init : FillResult,
    (roles.foldl (fillStep scored needed filterEnabled thresholds) init).selected
      = init.selected ++ (roles.map (fun role =>
          if getA needed role 0 ≤ 0 then []
          else (sortEntriesDesc (roleCandidates scored filterEnabled thresholds role)).take
            (getA needed role 0).toNat)).flatten := by
  induction roles with
  | nil => intro init; simp
  | cons role roles ih =>
    intro init
    rw [List.foldl_cons, ih, fillStep_selected]
    simp [List.append_assoc]

theorem fillStep_shortages_ne (scored : List SelectionEntry) (needed : List (String × Int))
    (filterEnabled : Bool) (thresholds : List (String × ℚ)) (acc : FillResult)
    (role r : String) (hne : role ≠ r) :
    lookupA (fillStep scored needed filterEnabled thresholds acc role).shortages r
      = lookupA acc.shortages r := by
  unfold fillStep
  by_cases h : getA needed role 0 ≤ 0
  · rw [if_pos h]
  · rw [if_neg h]
    dsimp only
    split
    · exact lookupA_setA_ne _ _ _ _ hne
    · rfl

theorem fillStep_shortages_self (scored : List SelectionEntry) (needed : List (String × Int))
    (filterEnabled : Bool) (thresholds : List (String × ℚ)) (acc : FillResult) (role : String) :
    lookupA (fillStep scored needed filterEnabled thresholds acc role).shortages role
      = if 0 < getA needed role 0 ∧
           ((roleCandidates scored filterEnabled thresholds role).length : Int) <
             getA needed role 0
        then some (getA needed role 0 -
          ((roleCandidates scored filterEnabled thresholds role).length : Int))
        else lookupA acc.shortages role := by
  unfold fillStep
  by_cases h : getA needed role 0 ≤ 0
  · rw [if_pos h, if_neg (by intro hc; omega)]
  · rw [if_neg h]
    dsimp only
    rw [length_sortEntriesDesc]
    split
    next h2 =>
      rw [lookupA_setA_self, if_pos ⟨by omega, h2⟩]
    next h2 =>
      rw [if_neg (by intro hc; exact h2 hc.2)]

/-- C7 (amended): the per-role quota fill iterates the fixed order
Batter, Bowler, Allrounder, Wicket Keeper (not the claimed Batter, Wicket
Keeper, Allrounder, Bowler); for each role with a positive quota it sorts
that role's candidates by `(selection_score, rating)` descending, takes
the top quota many, and records a shortage of `quota - candidates` when
fewer candidates exist than the quota. -/
theorem C7_per_role_fill_amended (scored : List SelectionEntry) (needed : List (String × Int))
    (filterEnabled : Bool) (thresholds : List (String × ℚ)) :
    roleFillOrder = ["Batter", "Bowler", "Allrounder", "Wicket Keeper"] ∧
    (fillRoles scored needed filterEnabled thresholds).selected
      = (roleFillOrder.map (fun role =>
          if getA needed role 0 ≤ 0 then []
          else (sortEntriesDesc (roleCandidates scored filterEnabled thresholds role)).take
            (getA needed role 0).toNat)).flatten ∧
    (∀ role ∈ roleFillOrder,
      lookupA (fillRoles scored needed filterEnabled thresholds).shortages role
        = if 0 < getA needed role 0 ∧
             ((roleCandidates scored filterEnabled thresholds role).length : Int) <
               getA needed role 0
          then some (getA needed role 0 -
            ((roleCandidates scored filterEnabled thresholds role).length : Int))
          else none) := by
  refine ⟨rfl, ?_, ?_⟩
  · unfold fillRoles
    rw [fillRoles_selected_aux]
    rfl
  · intro role hrole
    have hexp : fillRoles scored needed filterEnabled thresholds
        = fillStep scored needed filterEnabled thresholds
            (fillStep scored needed filterEnabled thresholds
              (fillStep scored needed filterEnabled thresholds
                (fillStep scored needed filterEnabled thresholds
                  { selected := [], shortages := [] } "Batter") "Bowler") "Allrounder")
            "Wicket Keeper" := rfl
    rw [hexp]
    simp only [roleFillOrder, List.mem_cons, List.not_mem_nil, or_false] at hrole
    rcases hrole with rfl | rfl | rfl | rfl
    · rw [fillStep_shortages_ne _ _ _ _ _ _ _ (by decide),
          fillStep_shortages_ne _ _ _ _ _ _ _ (by decide),
          fillStep_shortages_ne _ _ _ _ _ _ _ (by decide),
          fillStep_shortages_self]
      rfl
    · rw [fillStep_shortages_ne _ _ _ _ _ _ _ (by decide),
          fillStep_shortages_ne _ _ _ _ _ _ _ (by decide),
          fillStep_shortages_self,
          fillStep_shortages_ne _ _ _ _ _ _ _ (by decide)]
      rfl
    · rw [fillStep_shortages_ne _ _ _ _ _ _ _ (by decide),
          fillStep_shortages_self,
          fillStep_shortages_ne _ _ _ _ _ _ _ (by decide),
          fillStep_shortages_ne _ _ _ _ _ _ _ (by decide)]
      rfl
    · rw [fillStep_shortages_self,
          fillStep_shortages_ne _ _ _ _ _ _ _ (by decide),
          fillStep_shortages_ne _ _ _ _ _ _ _ (by decide),
          fillStep_shortages_ne _ _ _ _ _ _ _ (by decide)]
      rfl

theorem C7_witness :
    roleFillOrder = ["Batter", "Bowler", "Allrounder", "Wicket Keeper"] ∧
    (fillRoles [] [] false []).selected
      = (roleFillOrder.map (fun role =>
          if getA ([] : List (String × Int)) role 0 ≤ 0 then []
          else (sortEntriesDesc (roleCandidates [] false [] role)).take
            (getA ([] : List (String × Int)) role 0).toNat)).flatten ∧
    lookupA (fillRoles [] [] false []).shortages "Batter"
      = if 0 < getA ([] : List (String × Int)) "Batter" 0 ∧
           ((roleCandidates [] false [] "Batter").length : Int) <
             getA ([] : List (String × Int)) "Batter" 0
        then some (getA ([] : List (String × Int)) "Batter" 0 -
          ((roleCandidates [] false [] "Batter").length : Int))
        else none :=
  ⟨(C7_per_role_fill_amended [] [] false []).1,
   (C7_per_role_fill_amended [] [] false []).2.1,
   (C7_per_role_fill_amended [] [] false []).2.2 "Batter" (by decide)⟩

def c7Players : List PlayerProfile :=
  [testProfile "B" "Bowler" 80, testProfile "W" "Wicket Keeper" 80]

def c7Stats : List (String × PlayerStats) :=
  [("B", testStats "B" "Bowler" true 0 10), ("W", testStats "W" "Wicket Keeper" true 10 10)]

section
set_option allowUnsafeReducibility true
attribute [local semireducible] Rat.add Rat.mul Rat.sub Rat.inv

/-- C7 counterexample: two equally rated, equally sampled players (a
Bowler and a Wicket Keeper) with one quota slot each.  The code's fill
order (Batter, Bowler, Allrounder, Wicket Keeper) yields the lineup
[B, W]; running the very same algorithm in the claimed order (Batter,
Wicket Keeper, Allrounder, Bowler) yields [W, B] — a different result,
so the fill does not process roles in the claimed order. -/
theorem C7_role_order_counterexample :
    (selectTeam c7Players c7Stats [("Bowler", 1), ("Wicket Keeper", 1)] 2 0 0 false).toOption.map
        (fun o => o.1.map (fun e => e.profile.playerName)) = some ["B", "W"] ∧
    (selectTeamSpecOrder c7Players c7Stats
        [("Bowler", 1), ("Wicket Keeper", 1)] 2 0 0 false).toOption.map
        (fun o => o.1.map (fun e => e.profile.playerName)) = some ["W", "B"] ∧
    (selectTeam c7Players c7Stats [("Bowler", 1), ("Wicket Keeper", 1)] 2 0 0 false).toOption
      ≠ (selectTeamSpecOrder c7Players c7Stats
          [("Bowler", 1), ("Wicket Keeper", 1)] 2 0 0 false).toOption := by
  refine ⟨?_, ?_, ?_⟩ <;> decide

end

theorem mem_sortEntriesDesc (e : SelectionEntry) (l : List SelectionEntry) :
    e ∈ sortEntriesDesc l ↔ e ∈ l :=
  (List.perm_insertionSort _ l).mem_iff

theorem role_of_mem_roleCandidates (scored : List SelectionEntry) (fE : Bool)
    (th : List (String × ℚ)) (role : String) (e : SelectionEntry)
    (he : e ∈ roleCandidates scored fE th role) : e.profile.role = role := by
  unfold roleCandidates at he
  by_cases hc : fE = true ∧ (lookupA th role).isSome
  · rw [if_pos hc] at he
    cases hth : lookupA th role with
    | none => rw [hth] at he; exact eq_of_beq (List.mem_filter.mp he).2
    | some t =>
      rw [hth] at he
      obtain ⟨x, hx, rfl⟩ := List.mem_map.mp he
      exact eq_of_beq (List.mem_filter.mp (List.mem_filter.mp hx).1).2
  · rw [if_neg hc] at he
    exact eq_of_beq (List.mem_filter.mp he).2

theorem applyEmerging_zero (scored selected : List SelectionEntry)
    (emergingMaxInnings emergingSlots : Int) (hz : emergingSlots ≤ 0) :
    applyEmerging scored selected emergingMaxInnings emergingSlots = selected := by
  unfold applyEmerging
  rw [if_neg]
  intro hcon
  omega

theorem selectTeam_filter_eq (players : List PlayerProfile)
    (statsBy : List (String × PlayerStats)) (teamStructure : List (String × Int))
    (shrinkageK : ℚ) (emergingMaxInnings emergingSlots : Int)
    (needed : List (String × Int)) (scored : List SelectionEntry)
    (hn : buildNeeded teamStructure = Except.ok needed)
    (hs : scorePlayers players statsBy shrinkageK = Except.ok scored) :
    selectTeam players statsBy teamStructure shrinkageK emergingMaxInnings emergingSlots true
      = Except.ok
          ((sortEntriesDesc (fillRoles scored needed true
              (desiredRatingThresholds scored needed)).selected).take (targetOf needed),
           (fillRoles scored needed true (desiredRatingThresholds scored needed)).shortages,
           desiredRatingThresholds scored needed) := by
  unfold selectTeam
  rw [hn, hs]
  rfl

theorem selectTeam_default_eq (players : List PlayerProfile)
    (statsBy : List (String × PlayerStats)) (teamStructure : List (String × Int))
    (shrinkageK : ℚ) (emergingMaxInnings emergingSlots : Int)
    (needed : List (String × Int)) (scored : List SelectionEntry)
    (hn : buildNeeded teamStructure = Except.ok needed)
    (hs : scorePlayers players statsBy shrinkageK = Except.ok scored) :
    selectTeam players statsBy teamStructure shrinkageK emergingMaxInnings emergingSlots false
      = Except.ok
          ((sortEntriesDesc (applyEmerging scored
              (backfillDefault scored (fillRoles scored needed false
                (desiredRatingThresholds scored needed)).selected (targetOf needed))
              emergingMaxInnings emergingSlots)).take (targetOf needed),
           (fillRoles scored needed false (desiredRatingThresholds scored needed)).shortages,
           desiredRatingThresholds scored needed) := by
  unfold selectTeam
  rw [hn, hs]
  rfl

/-- C8: in threshold-filtering mode, `select_team` returns the per-role
picks re-sorted and truncated to the target size, and every returned
entry was picked inside its own role's quota (no cross-role backfill);
in default mode (here with no emerging slots, which the claim does not
concern) the result is the sorted truncation of the backfilled list, and
the backfill appends to the per-role picks exactly the top
`target - |selected|` of the scored pool — any role — excluding players
already selected by name and players with an empty role, in
`(selection_score, rating)` descending order. -/
theorem C8_backfill_modes
    (players : List PlayerProfile) (statsBy : List (String × PlayerStats))
    (teamStructure : List (String × Int)) (shrinkageK : ℚ)
    (emergingMaxInnings emergingSlots : Int)
    (needed : List (String × Int)) (scored : List SelectionEntry)
    (hn : buildNeeded teamStructure = Except.ok needed)
    (hs : scorePlayers players statsBy shrinkageK = Except.ok scored) :
    (selectTeam players statsBy teamStructure shrinkageK emergingMaxInnings emergingSlots true
       = Except.ok
           ((sortEntriesDesc (fillRoles scored needed true
               (desiredRatingThresholds scored needed)).selected).take (targetOf needed),
            (fillRoles scored needed true (desiredRatingThresholds scored needed)).shortages,
            desiredRatingThresholds scored needed)) ∧
    (∀ e ∈ (sortEntriesDesc (fillRoles scored needed true
         (desiredRatingThresholds scored needed)).selected).take (targetOf needed),
       ∃ role ∈ roleFillOrder, e.profile.role = role ∧ 0 < getA needed role 0 ∧
         e ∈ (sortEntriesDesc (roleCandidates scored true
               (desiredRatingThresholds scored needed) role)).take
             (getA needed role 0).toNat) ∧
    (emergingSlots ≤ 0 →
      selectTeam players statsBy teamStructure shrinkageK emergingMaxInnings emergingSlots false
        = Except.ok
            ((sortEntriesDesc (backfillDefault scored
                (fillRoles scored needed false
                  (desiredRatingThresholds scored needed)).selected (targetOf needed))).take
              (targetOf needed),
             (fillRoles scored needed false (desiredRatingThresholds scored needed)).shortages,
             desiredRatingThresholds scored needed)) ∧
    (∀ sel : List SelectionEntry, sel.length < targetOf needed →
       backfillDefault scored sel (targetOf needed)
         = sel ++ (sortEntriesDesc (scored.filter (fun e =>
             !((sel.map (fun x => x.profile.playerName)).contains e.profile.playerName) &&
               !(e.profile.role == "")))).take (targetOf needed - sel.length)) ∧
    (∀ sel : List SelectionEntry, targetOf needed ≤ sel.length →
       backfillDefault scored sel (targetOf needed) = sel) := by
  refine ⟨selectTeam_filter_eq players statsBy teamStructure shrinkageK
      emergingMaxInnings emergingSlots needed scored hn hs, ?_, ?_, ?_, ?_⟩
  · intro e he
    have he1 : e ∈ sortEntriesDesc (fillRoles scored needed true
        (desiredRatingThresholds scored needed)).selected := List.take_subset _ _ he
    have he2 : e ∈ (fillRoles scored needed true
        (desiredRatingThresholds scored needed)).selected :=
      (mem_sortEntriesDesc _ _).mp he1
    have hflat : (fillRoles scored needed true
        (desiredRatingThresholds scored needed)).selected
        = (roleFillOrder.map (fun role =>
            if getA needed role 0 ≤ 0 then []
            else (sortEntriesDesc (roleCandidates scored true
              (desiredRatingThresholds scored needed) role)).take
              (getA needed role 0).toNat)).flatten := by
      unfold fillRoles
      rw [fillRoles_selected_aux]
      rfl
    rw [hflat] at he2
    obtain ⟨l, hl, hel⟩ := List.mem_flatten.mp he2
    obtain ⟨role, hrole, rfl⟩ := List.mem_map.mp hl
    by_cases hq : getA needed role 0 ≤ 0
    · rw [if_pos hq] at hel
      exact absurd hel (List.not_mem_nil e)
    · rw [if_neg hq] at hel
      have he3 : e ∈ roleCandidates scored true (desiredRatingThresholds scored needed) role :=
        (mem_sortEntriesDesc _ _).mp (List.take_subset _ _ hel)
      exact ⟨role, hrole, role_of_mem_roleCandidates _ _ _ _ _ he3, by omega, hel⟩
  · intro hz
    rw [selectTeam_default_eq players statsBy teamStructure shrinkageK
        emergingMaxInnings emergingSlots needed scored hn hs,
        applyEmerging_zero _ _ _ _ hz]
  · intro sel hlt
    unfold backfillDefault
    rw [if_pos hlt]
  · intro sel hge
    unfold backfillDefault
    rw [if_neg (by omega)]

theorem C8_witness :
    (selectTeam [] [] [] 5 0 0 true
       = Except.ok
           ((sortEntriesDesc (fillRoles [] [] true
               (desiredRatingThresholds [] [])).selected).take (targetOf []),
            (fillRoles [] [] true (desiredRatingThresholds [] [])).shortages,
            desiredRatingThresholds [] [])) ∧
    (∀ e ∈ (sortEntriesDesc (fillRoles [] [] true
         (desiredRatingThresholds [] [])).selected).take (targetOf []),
       ∃ role ∈ roleFillOrder, e.profile.role = role ∧ 0 < getA ([] : List (String × Int)) role 0 ∧
         e ∈ (sortEntriesDesc (roleCandidates [] true
               (desiredRatingThresholds [] []) role)).take
             (getA ([] : List (String × Int)) role 0).toNat) ∧
    ((0 : Int) ≤ 0 →
      selectTeam [] [] [] 5 0 0 false
        = Except.ok
            ((sortEntriesDesc (backfillDefault []
                (fillRoles [] [] false
                  (desiredRatingThresholds [] [])).selected (targetOf []))).take
              (targetOf []),
             (fillRoles [] [] false (desiredRatingThresholds [] [])).shortages,
             desiredRatingThresholds [] [])) ∧
    (∀ sel : List SelectionEntry, sel.length < targetOf [] →
       backfillDefault [] sel (targetOf [])
         = sel ++ (sortEntriesDesc (List.filter (fun e =>
             !((sel.map (fun x => x.profile.playerName)).contains e.profile.playerName) &&
               !(e.profile.role == "")) [])).take (targetOf [] - sel.length)) ∧
    (∀ sel : List SelectionEntry, targetOf [] ≤ sel.length →
       backfillDefault [] sel (targetOf []) = sel) :=
  C8_backfill_modes [] [] [] 5 0 0 [] [] rfl rfl

theorem C9_witness :
    (runTeam [] ConfigVal.notObj 1 0 0 false rateNone selectTeam
      = Except.error "No available players found in input CSV") ∧
    (runTeam [testStats "A" "Batter" true 1 0] ConfigVal.notObj 1 0 0 false rateNone selectTeam
      = Except.error "team_structure must be a JSON object in weights config") ∧
    (runTeam [testStats "A" "Batter" true 1 0] (ConfigVal.obj [("Batter", 0)]) 1 0 0 false
        rateNone selectTeam
      = Except.error "team_structure in weights config has no positive role counts") :=
  ⟨(C9_distinct_errors_before_selection [] 1 0 0 false rateNone selectTeam).1
      ConfigVal.notObj rfl,
   (C9_distinct_errors_before_selection [testStats "A" "Batter" true 1 0] 1 0 0 false
      rateNone selectTeam).2.1 rfl,
   (C9_distinct_errors_before_selection [testStats "A" "Batter" true 1 0] 1 0 0 false
      rateNone selectTeam).2.2.1 [("Batter", 0)] rfl (by decide)⟩

end PlayerRating
